import Mathlib

/-!
Verification of the hypergraph-construction pipeline.

This file gives a shallow embedding, in Lean 4, of the algorithmic core of
the knowledge-graph construction repository: the V2 hypergraph builder
(entity deduplication, node/edge construction, graph metrics and insights),
the file analyzer complexity score, the graph extraction agent
(node/edge normalisation, deterministic hash ids, S3 retry logic) and the
needs-analysis scoring (keyword matching, LLM response parsing, 30/70
blending).  Python floats and Decimals are modelled as rationals, Python
dicts as insertion-ordered association lists, and the external MD5/SHA-256
hash primitives are implemented in full over naturals reduced mod 2^32.
All definitions are executable; the theorems at the end of the file settle
the specification claims against these definitions.
-/

set_option maxHeartbeats 1000000
set_option maxRecDepth 10000

namespace KG

/-! ## Python-style basic utilities -/

/-- Python whitespace test for `str.split()` / `\s` (ASCII subset). -/
def pyWS (c : Char) : Bool := c.isWhitespace

/-- Python `str.lower()` (ASCII model). -/
def pyLower (s : String) : String := String.mk (s.data.map Char.toLower)

/-- Accumulating scanner for `str.split()`: `cur` holds the reversed
characters of the word being read. -/
def wordsAux : List Char → List Char → List (List Char)
  | [], cur => if cur.isEmpty then [] else [cur.reverse]
  | c :: rest, cur =>
    if pyWS c then
      if cur.isEmpty then wordsAux rest [] else cur.reverse :: wordsAux rest []
    else wordsAux rest (c :: cur)

/-- Python `str.split()` with no argument: split on whitespace runs,
dropping empty pieces. -/
def pyWords (s : String) : List String :=
  (wordsAux s.data []).map String.mk

/-- Python `str.strip()`: remove leading and trailing whitespace. -/
def pyStrip (s : String) : String :=
  String.mk (((s.data.dropWhile pyWS).reverse.dropWhile pyWS).reverse)

/-- First `n` characters of a string (`s[:n]`). -/
def strTake (s : String) (n : ℕ) : String := String.mk (s.data.take n)

/-- Is `pat` a contiguous sublist of `hay`?  Models Python `pat in hay`
for strings (the empty pattern is contained in everything). -/
def containsSub : List Char → List Char → Bool
  | [], pat => pat.isEmpty
  | hay@(_ :: rest), pat => pat.isPrefixOf hay || containsSub rest pat

/-- String-level wrapper for `containsSub` (Python `pat in hay`). -/
def strContains (hay pat : String) : Bool := containsSub hay.data pat.data

/-- Fuel-driven core of `countSub`. -/
def countSubGo (pat : List Char) : ℕ → List Char → ℕ
  | 0, _ => 0
  | _ + 1, [] => 0
  | fuel + 1, c :: rest =>
    if pat.isPrefixOf (c :: rest) then
      1 + countSubGo pat fuel ((c :: rest).drop pat.length)
    else
      countSubGo pat fuel rest

/-- Python `hay.count(pat)`: non-overlapping occurrences, scanning left to
right; counting the empty pattern yields `len(hay) + 1`. -/
def countSub (hay pat : List Char) : ℕ :=
  if pat.isEmpty then hay.length + 1 else countSubGo pat (hay.length + 1) hay

/-- Python dict lookup `m.get(k)` on an insertion-ordered association
list (keys are unique by construction of `dictInsert`). -/
def dictFind {K V : Type} [DecidableEq K] (m : List (K × V)) (k : K) : Option V :=
  match m with
  | [] => none
  | (k0, v0) :: rest => if k0 = k then some v0 else dictFind rest k

/-- Python dict assignment `m[k] = v`: replace the value in place if the
key is present (keeping insertion order), otherwise append. -/
def dictInsert {K V : Type} [DecidableEq K] (m : List (K × V)) (k : K) (v : V) :
    List (K × V) :=
  match m with
  | [] => [(k, v)]
  | (k0, v0) :: rest =>
    if k0 = k then (k0, v) :: rest else (k0, v0) :: dictInsert rest k v

/-- Python `max(iterable)` over a nonempty list of strings: keep the
current value unless the next element is strictly greater. -/
def pyMaxStr (x : String) (xs : List String) : String :=
  xs.foldl (fun acc b => if acc < b then b else acc) x

/-! ## V2 hypergraph builder: data model
(`enhanced_hypergraph_builder_agent_v2.py`) -/

/-- The `NodeType` enum of the V2 builder. -/
inductive NodeType
  | person | organization | concept | skill | need
  | behavioral_pattern | personality_trait | financial_instrument
  | business_concept | topic
  deriving DecidableEq, Repr

/-- `NodeType.value`: the string payload of each enum member. -/
def NodeType.value : NodeType → String
  | .person => "person"
  | .organization => "organization"
  | .concept => "concept"
  | .skill => "skill"
  | .need => "need"
  | .behavioral_pattern => "behavioral_pattern"
  | .personality_trait => "personality_trait"
  | .financial_instrument => "financial_instrument"
  | .business_concept => "business_concept"
  | .topic => "topic"

/-- The `EdgeType` enum of the V2 builder. -/
inductive EdgeType
  | demonstrates | relates_to | influences | requires | enables
  | part_of | similar_to | works_with | specializes_in
  | interviews | discusses | affiliated_with | uses
  deriving DecidableEq, Repr

/-- `EdgeType.value`: the string payload of each enum member. -/
def EdgeType.value : EdgeType → String
  | .demonstrates => "demonstrates"
  | .relates_to => "relates_to"
  | .influences => "influences"
  | .requires => "requires"
  | .enables => "enables"
  | .part_of => "part_of"
  | .similar_to => "similar_to"
  | .works_with => "works_with"
  | .specializes_in => "specializes_in"
  | .interviews => "interviews"
  | .discusses => "discusses"
  | .affiliated_with => "affiliated_with"
  | .uses => "uses"

/-- The `CleanEntity` dataclass (the free-form `properties` dict is
modelled as a string association list). -/
structure CleanEntity where
  text : String
  entity_type : NodeType
  confidence : ℚ
  context : String
  source : String
  properties : List (String × String)
  domain_relevance : ℚ
  deriving DecidableEq, Repr

/-- The `CleanRelationship` dataclass. -/
structure CleanRelationship where
  source_entity : String
  target_entity : String
  relationship_type : EdgeType
  confidence : ℚ
  evidence : List String
  reasoning : String
  source : String
  deriving DecidableEq, Repr

/-- The `EnhancedHyperNode` dataclass (the free-form `metadata`,
`needs_classification` and `domain_specific_properties` dicts, which no
verified operation inspects, are omitted). -/
structure EnhancedHyperNode where
  id : String
  content : String
  node_type : NodeType
  confidence : ℚ
  timestamp : String
  source : String
  deriving DecidableEq, Repr

/-- The `EnhancedHyperEdge` dataclass (the free-form `metadata` dict is
omitted). -/
structure EnhancedHyperEdge where
  id : String
  source_node_id : String
  target_node_id : String
  edge_type : EdgeType
  confidence : ℚ
  timestamp : String
  evidence : List String
  reasoning : String
  deriving DecidableEq, Repr

/-- The dedup key of `CleanEntityExtractor._deduplicate_entities`:
`(entity.text.lower(), entity.entity_type)`. -/
def entityKey (e : CleanEntity) : String × NodeType :=
  (pyLower e.text, e.entity_type)

/-- One loop iteration of `_deduplicate_entities`: keep the incumbent
unless the key is new or the new entity has strictly higher confidence. -/
def dedupStep (m : List ((String × NodeType) × CleanEntity)) (e : CleanEntity) :
    List ((String × NodeType) × CleanEntity) :=
  match dictFind m (entityKey e) with
  | none => dictInsert m (entityKey e) e
  | some old =>
    if old.confidence < e.confidence then dictInsert m (entityKey e) e else m

/-- `CleanEntityExtractor._deduplicate_entities`: fold the entities into a
dict keyed by `(text.lower(), entity_type)`, then return the values. -/
def deduplicate_entities (entities : List CleanEntity) : List CleanEntity :=
  (entities.foldl dedupStep []).map Prod.snd

/-! ## V2 hypergraph builder: edge construction, metrics, insights -/

/-- The `node_lookup` dict of `_create_enhanced_hyperedges`:
`{node.content.lower(): node.id}` in node order (later nodes override). -/
def nodeLookup (hypernodes : List EnhancedHyperNode) : List (String × String) :=
  hypernodes.foldl (fun m n => dictInsert m (pyLower n.content) n.id) []

/-- `EnhancedHypergraphBuilderV2._create_enhanced_hyperedges`: resolve
both endpoint texts through the lowercased-content lookup and keep the
relationship only when both resolve to truthy (non-empty) node ids.
`timestamp` stands for the `datetime.now().isoformat()` call. -/
def create_enhanced_hyperedges (relationships : List CleanRelationship)
    (hypernodes : List EnhancedHyperNode) (timestamp : String) :
    List EnhancedHyperEdge :=
  let node_lookup := nodeLookup hypernodes
  relationships.filterMap fun rel =>
    match dictFind node_lookup (pyLower rel.source_entity),
          dictFind node_lookup (pyLower rel.target_entity) with
    | some source_id, some target_id =>
      if source_id ≠ "" ∧ target_id ≠ "" then
        some
          { id := "edge_" ++ source_id ++ "_" ++ target_id ++ "_" ++
              rel.relationship_type.value
            source_node_id := source_id
            target_node_id := target_id
            edge_type := rel.relationship_type
            confidence := rel.confidence
            timestamp := timestamp
            evidence := rel.evidence
            reasoning := rel.reasoning }
      else none
    | _, _ => none

/-- `EnhancedHypergraphBuilderV2._calculate_quality_score`: weighted
average of mean node confidence, mean edge confidence, node-type
diversity (capped at 6 types) and edge-type diversity (capped at 5). -/
def calculate_quality_score (nodes : List EnhancedHyperNode)
    (edges : List EnhancedHyperEdge) : ℚ :=
  if nodes.isEmpty then 0.0
  else
    let avg_node_confidence : ℚ :=
      (nodes.map (fun n => n.confidence)).sum / (nodes.length : ℚ)
    let avg_edge_confidence : ℚ :=
      if edges.isEmpty then 0.0
      else (edges.map (fun e => e.confidence)).sum / (edges.length : ℚ)
    let entity_types : ℕ := ((nodes.map (fun n => n.node_type.value)).eraseDups).length
    let diversity_score : ℚ := min ((entity_types : ℚ) / 6.0) 1.0
    let relationship_types : ℕ :=
      if edges.isEmpty then 0
      else ((edges.map (fun e => e.edge_type.value)).eraseDups).length
    let rel_diversity_score : ℚ := min ((relationship_types : ℚ) / 5.0) 1.0
    0.3 * avg_node_confidence + 0.3 * avg_edge_confidence +
      0.2 * diversity_score + 0.2 * rel_diversity_score

/-- The record returned by `_generate_graph_insights`. -/
structure GraphInsights where
  central_entities : List String
  graph_density : ℚ
  most_common_relationship : String
  entity_diversity : ℕ
  quality_score : ℚ
  deriving Repr

/-- The `node_connections` degree dict of `_generate_graph_insights`:
each edge increments the count of its source and of its target. -/
def nodeConnections (edges : List EnhancedHyperEdge) : List (String × ℕ) :=
  edges.foldl
    (fun m e =>
      let m1 := dictInsert m e.source_node_id
        ((dictFind m e.source_node_id).getD 0 + 1)
      dictInsert m1 e.target_node_id
        ((dictFind m1 e.target_node_id).getD 0 + 1))
    []

/-- `EnhancedHypergraphBuilderV2._generate_graph_insights`.  The sort
models Python `sorted(..., key=lambda x: x[1], reverse=True)` (stable,
descending by count). -/
def generate_graph_insights (nodes : List EnhancedHyperNode)
    (edges : List EnhancedHyperEdge) : GraphInsights :=
  let node_connections := nodeConnections edges
  let most_connected :=
    (node_connections.mergeSort (fun a b => decide (b.2 ≤ a.2))).take 3
  let node_lookup := nodes.foldl (fun m n => dictInsert m n.id n.content) []
  let central_entities :=
    most_connected.map (fun p => (dictFind node_lookup p.1).getD "Unknown")
  { central_entities := central_entities
    graph_density :=
      if 1 < nodes.length then
        (edges.length : ℚ) / ((nodes.length : ℚ) * ((nodes.length : ℚ) - 1))
      else 0.0
    most_common_relationship :=
      match edges.map (fun e => e.edge_type.value) with
      | [] => "none"
      | t :: ts => pyMaxStr t ts
    entity_diversity := ((nodes.map (fun n => n.node_type.value)).eraseDups).length
    quality_score := calculate_quality_score nodes edges }

/-! ## File analyzer (`enhanced_file_analyzer.py`) -/

/-- A sentence separator of `re.split(r'[.!?]+', content)`. -/
def sentSep (c : Char) : Bool := c = '.' || c = '!' || c = '?'

/-- Number of maximal runs of sentence separators; `inRun` records
whether the previous character was a separator. -/
def sepRunsGo : List Char → Bool → ℕ
  | [], _ => 0
  | c :: rest, inRun =>
    if sentSep c then (if inRun then 0 else 1) + sepRunsGo rest true
    else sepRunsGo rest false

/-- `len(re.split(r'[.!?]+', content))`: one more than the number of
separator runs. -/
def sentenceCount (s : String) : ℕ := sepRunsGo s.data false + 1

/-- Non-overlapping occurrences of the two-character separator of
`content.split('\n\n')`, scanning left to right. -/
def doubleNewlineCount : List Char → ℕ
  | '\n' :: '\n' :: rest => doubleNewlineCount rest + 1
  | _ :: rest => doubleNewlineCount rest
  | [] => 0

/-- `len(content.split('\n\n'))`. -/
def paragraphCount (s : String) : ℕ := doubleNewlineCount s.data + 1

/-- A character of the class `[A-Za-z\s]` in the speaker pattern. -/
def spkChar (c : Char) : Bool := c.isAlpha || pyWS c

/-- Scanner for `re.findall(r'^([A-Za-z\s]+):\s*', content, re.MULTILINE)`:
at each line start, the maximal run of `[A-Za-z\s]` characters matches
exactly when it is nonempty and immediately followed by a colon; the
match then also consumes the colon and any following whitespace, and
scanning resumes at the match end.  `atStart` records whether the current
position begins a line; `fuel` dominates the number of scan steps. -/
def spkGo : ℕ → List Char → Bool → List String
  | 0, _, _ => []
  | _ + 1, [], _ => []
  | fuel + 1, c :: rest, atStart =>
    if atStart then
      let run := (c :: rest).takeWhile spkChar
      match run, (c :: rest).drop run.length with
      | _ :: _, ':' :: rest2 =>
        let ws := rest2.takeWhile pyWS
        let rest3 := rest2.drop ws.length
        let newAtStart := ws.getLastD ':' = '\n'
        String.mk run :: spkGo fuel rest3 newAtStart
      | _, _ => spkGo fuel rest (c = '\n')
    else spkGo fuel rest (c = '\n')

/-- All captured speaker groups of the multiline speaker regex. -/
def speakersFound (s : String) : List String :=
  spkGo (s.data.length + 1) s.data true

/-- `len(set(re.findall(...)))`: the number of distinct speakers. -/
def speakerCount (s : String) : ℕ := ((speakersFound s).eraseDups).length

/-- The fixed `technical_keywords` list of `analyze_content_complexity`. -/
def technicalKeywords : List String :=
  ["technology", "software", "engineering", "development", "system", "algorithm"]

/-- `FileAnalyzer.analyze_content_complexity`.  Note that the source
computes `sentence_count` but never uses it: the score depends on the
word count, the speaker count, the paragraph count and the technical
keyword hits. -/
def analyze_content_complexity (content : String) : ℚ :=
  let word_count : ℕ := (pyWords content).length
  let _sentence_count : ℕ := sentenceCount content
  let paragraph_count : ℕ := paragraphCount content
  let speaker_count : ℕ := speakerCount content
  let word_complexity : ℚ := min ((word_count : ℚ) / 2000) 1.0 * 0.3
  let structure_complexity : ℚ := min ((speaker_count : ℚ) / 5) 1.0 * 0.3
  let length_complexity : ℚ := min ((paragraph_count : ℚ) / 20) 1.0 * 0.2
  let technical_score : ℚ :=
    ((technicalKeywords.filter (fun k => strContains (pyLower content) k)).length : ℚ) /
      (technicalKeywords.length : ℚ)
  let technical_complexity : ℚ := technical_score * 0.2
  min (word_complexity + structure_complexity + length_complexity +
    technical_complexity) 1.0

/-! ## Byte strings and hex encoding

The id generators call `hashlib.md5` / `hashlib.sha256` on UTF-8 encoded
strings; both hash functions are implemented here in full, over naturals
reduced mod `2^32`. -/

/-- UTF-8 encoding of a single code point, as byte values. -/
def utf8EncodeChar (c : Char) : List ℕ :=
  let n := c.toNat
  if n < 0x80 then [n]
  else if n < 0x800 then [0xC0 + n / 0x40, 0x80 + n % 0x40]
  else if n < 0x10000 then
    [0xE0 + n / 0x1000, 0x80 + (n / 0x40) % 0x40, 0x80 + n % 0x40]
  else
    [0xF0 + n / 0x40000, 0x80 + (n / 0x1000) % 0x40,
     0x80 + (n / 0x40) % 0x40, 0x80 + n % 0x40]

/-- `s.encode('utf-8')` as a list of byte values. -/
def strBytes (s : String) : List ℕ :=
  s.data.foldr (fun c acc => utf8EncodeChar c ++ acc) []

/-- Lowercase hex digit for a value below 16. -/
def hexChar (n : ℕ) : Char :=
  if n < 10 then Char.ofNat (48 + n) else Char.ofNat (87 + n)

/-- Lowercase hex rendering of a byte list (`hexdigest`). -/
def bytesToHex (bs : List ℕ) : String :=
  String.mk (bs.foldr (fun b acc => hexChar (b / 16) :: hexChar (b % 16) :: acc) [])

/-- `k` little-endian bytes of `n`. -/
def natLEBytes : ℕ → ℕ → List ℕ
  | 0, _ => []
  | k + 1, n => n % 256 :: natLEBytes k (n / 256)

/-- `k` big-endian bytes of `n`. -/
def natBEBytes (k n : ℕ) : List ℕ := (natLEBytes k n).reverse

/-- Split a list into chunks of `n` (fuel-driven). -/
def chunksGo {α : Type} (n : ℕ) : ℕ → List α → List (List α)
  | 0, _ => []
  | _ + 1, [] => []
  | fuel + 1, l => l.take n :: chunksGo n fuel (l.drop n)

/-- Split a list into chunks of `n` elements. -/
def chunks {α : Type} (n : ℕ) (l : List α) : List (List α) :=
  chunksGo n (l.length + 1) l

/-- 32-bit word from little-endian bytes. -/
def leWord (bs : List ℕ) : ℕ := bs.foldr (fun b acc => acc * 256 + b) 0

/-- 32-bit word from big-endian bytes. -/
def beWord (bs : List ℕ) : ℕ := bs.foldl (fun acc b => acc * 256 + b) 0

/-- Left rotation of a 32-bit word. -/
def rotl32 (x n : ℕ) : ℕ := (x * 2 ^ n + x / 2 ^ (32 - n)) % 2 ^ 32

/-- Rotate a 32-bit word right by `n` bits. -/
def rotr32 (x n : ℕ) : ℕ := (x / 2 ^ n + x % 2 ^ n * 2 ^ (32 - n)) % 2 ^ 32

/-- Bitwise complement of a 32-bit word. -/
def bnot32 (x : ℕ) : ℕ := 2 ^ 32 - 1 - x

/-! ## MD5 (RFC 1321) -/

/-- The 64 MD5 sine-derived constants. -/
def md5K : List ℕ :=
  [0xd76aa478, 0xe8c7b756, 0x242070db, 0xc1bdceee,
   0xf57c0faf, 0x4787c62a, 0xa8304613, 0xfd469501,
   0x698098d8, 0x8b44f7af, 0xffff5bb1, 0x895cd7be,
   0x6b901122, 0xfd987193, 0xa679438e, 0x49b40821,
   0xf61e2562, 0xc040b340, 0x265e5a51, 0xe9b6c7aa,
   0xd62f105d, 0x02441453, 0xd8a1e681, 0xe7d3fbc8,
   0x21e1cde6, 0xc33707d6, 0xf4d50d87, 0x455a14ed,
   0xa9e3e905, 0xfcefa3f8, 0x676f02d9, 0x8d2a4c8a,
   0xfffa3942, 0x8771f681, 0x6d9d6122, 0xfde5380c,
   0xa4beea44, 0x4bdecfa9, 0xf6bb4b60, 0xbebfbc70,
   0x289b7ec6, 0xeaa127fa, 0xd4ef3085, 0x04881d05,
   0xd9d4d039, 0xe6db99e5, 0x1fa27cf8, 0xc4ac5665,
   0xf4292244, 0x432aff97, 0xab9423a7, 0xfc93a039,
   0x655b59c3, 0x8f0ccc92, 0xffeff47d, 0x85845dd1,
   0x6fa87e4f, 0xfe2ce6e0, 0xa3014314, 0x4e0811a1,
   0xf7537e82, 0xbd3af235, 0x2ad7d2bb, 0xeb86d391]

/-- The 64 MD5 per-round left-rotation amounts. -/
def md5S : List ℕ :=
  [7, 12, 17, 22, 7, 12, 17, 22, 7, 12, 17, 22, 7, 12, 17, 22,
   5, 9, 14, 20, 5, 9, 14, 20, 5, 9, 14, 20, 5, 9, 14, 20,
   4, 11, 16, 23, 4, 11, 16, 23, 4, 11, 16, 23, 4, 11, 16, 23,
   6, 10, 15, 21, 6, 10, 15, 21, 6, 10, 15, 21, 6, 10, 15, 21]

/-- One MD5 operation (round `i` on message words `M`). -/
def md5Op (M : List ℕ) (st : ℕ × ℕ × ℕ × ℕ) (i : ℕ) : ℕ × ℕ × ℕ × ℕ :=
  let (a, b, c, d) := st
  let f :=
    if i < 16 then (b &&& c) ||| (bnot32 b &&& d)
    else if i < 32 then (d &&& b) ||| (bnot32 d &&& c)
    else if i < 48 then b ^^^ c ^^^ d
    else c ^^^ (b ||| bnot32 d)
  let g :=
    if i < 16 then i
    else if i < 32 then (5 * i + 1) % 16
    else if i < 48 then (3 * i + 5) % 16
    else (7 * i) % 16
  let tmp := (f + a + md5K.getD i 0 + M.getD g 0) % 2 ^ 32
  (d, (b + rotl32 tmp (md5S.getD i 0)) % 2 ^ 32, b, c)

/-- Process one 64-byte MD5 block. -/
def md5Block (h : ℕ × ℕ × ℕ × ℕ) (block : List ℕ) : ℕ × ℕ × ℕ × ℕ :=
  let M := (chunks 4 block).map leWord
  let (h0, h1, h2, h3) := h
  let (a, b, c, d) := (List.range 64).foldl (md5Op M) h
  ((h0 + a) % 2 ^ 32, (h1 + b) % 2 ^ 32, (h2 + c) % 2 ^ 32, (h3 + d) % 2 ^ 32)

/-- MD5 padding: a `0x80` byte, zeros to 56 mod 64, then the bit length
as 8 little-endian bytes. -/
def md5Pad (msg : List ℕ) : List ℕ :=
  let padLen := (64 + 56 - (msg.length + 1) % 64) % 64
  msg ++ [0x80] ++ List.replicate padLen 0 ++
    natLEBytes 8 (msg.length * 8 % 2 ^ 64)

/-- The 16 MD5 digest bytes of a byte string. -/
def md5Digest (msg : List ℕ) : List ℕ :=
  let init : ℕ × ℕ × ℕ × ℕ := (0x67452301, 0xefcdab89, 0x98badcfe, 0x10325476)
  let (a, b, c, d) := (chunks 64 (md5Pad msg)).foldl md5Block init
  natLEBytes 4 a ++ natLEBytes 4 b ++ natLEBytes 4 c ++ natLEBytes 4 d

/-- `hashlib.md5(msg).hexdigest()`. -/
def md5Hex (msg : List ℕ) : String := bytesToHex (md5Digest msg)

/-! ## SHA-256 (FIPS 180-4) -/

/-- The 64 SHA-256 round constants. -/
def sha256K : List ℕ :=
  [1116352408, 1899447441, 3049323471, 3921009573,
   961987163, 1508970993, 2453635748, 2870763221,
   3624381080, 310598401, 607225278, 1426881987,
   1925078388, 2162078206, 2614888103, 3248222580,
   3835390401, 4022224774, 264347078, 604807628,
   770255983, 1249150122, 1555081692, 1996064986,
   2554220882, 2821834349, 2952996808, 3210313671,
   3336571891, 3584528711, 113926993, 338241895,
   666307205, 773529912, 1294757372, 1396182291,
   1695183700, 1986661051, 2177026350, 2456956037,
   2730485921, 2820302411, 3259730800, 3345764771,
   3516065817, 3600352804, 4094571909, 275423344,
   430227734, 506948616, 659060556, 883997877,
   958139571, 1322822218, 1537002063, 1747873779,
   1955562222, 2024104815, 2227730452, 2361852424,
   2428436474, 2756734187, 3204031479, 3329325298]

/-- Extend 16 message words to the 64-word SHA-256 schedule. -/
def sha256Extend (w : List ℕ) : List ℕ :=
  (List.range 48).foldl
    (fun w _ =>
      let i := w.length
      let w15 := w.getD (i - 15) 0
      let w2 := w.getD (i - 2) 0
      let s0 := rotr32 w15 7 ^^^ rotr32 w15 18 ^^^ w15 / 2 ^ 3
      let s1 := rotr32 w2 17 ^^^ rotr32 w2 19 ^^^ w2 / 2 ^ 10
      w ++ [(w.getD (i - 16) 0 + s0 + w.getD (i - 7) 0 + s1) % 2 ^ 32])
    w

/-- SHA-256 working state. -/
structure Sha256State where
  a : ℕ
  b : ℕ
  c : ℕ
  d : ℕ
  e : ℕ
  f : ℕ
  g : ℕ
  hh : ℕ

/-- One SHA-256 compression round. -/
def sha256Round (w : List ℕ) (st : Sha256State) (i : ℕ) : Sha256State :=
  let S1 := rotr32 st.e 6 ^^^ rotr32 st.e 11 ^^^ rotr32 st.e 25
  let ch := (st.e &&& st.f) ^^^ (bnot32 st.e &&& st.g)
  let temp1 := (st.hh + S1 + ch + sha256K.getD i 0 + w.getD i 0) % 2 ^ 32
  let S0 := rotr32 st.a 2 ^^^ rotr32 st.a 13 ^^^ rotr32 st.a 22
  let maj := (st.a &&& st.b) ^^^ (st.a &&& st.c) ^^^ (st.b &&& st.c)
  let temp2 := (S0 + maj) % 2 ^ 32
  { a := (temp1 + temp2) % 2 ^ 32, b := st.a, c := st.b, d := st.c
    e := (st.d + temp1) % 2 ^ 32, f := st.e, g := st.f, hh := st.g }

/-- Process one 64-byte SHA-256 block. -/
def sha256Block (h : List ℕ) (block : List ℕ) : List ℕ :=
  let w := sha256Extend ((chunks 4 block).map beWord)
  let init : Sha256State :=
    { a := h.getD 0 0, b := h.getD 1 0, c := h.getD 2 0, d := h.getD 3 0
      e := h.getD 4 0, f := h.getD 5 0, g := h.getD 6 0, hh := h.getD 7 0 }
  let s := (List.range 64).foldl (sha256Round w) init
  [(h.getD 0 0 + s.a) % 2 ^ 32, (h.getD 1 0 + s.b) % 2 ^ 32,
   (h.getD 2 0 + s.c) % 2 ^ 32, (h.getD 3 0 + s.d) % 2 ^ 32,
   (h.getD 4 0 + s.e) % 2 ^ 32, (h.getD 5 0 + s.f) % 2 ^ 32,
   (h.getD 6 0 + s.g) % 2 ^ 32, (h.getD 7 0 + s.hh) % 2 ^ 32]

/-- SHA-256 padding: like MD5 but with a big-endian bit length. -/
def sha256Pad (msg : List ℕ) : List ℕ :=
  let padLen := (64 + 56 - (msg.length + 1) % 64) % 64
  msg ++ [0x80] ++ List.replicate padLen 0 ++
    natBEBytes 8 (msg.length * 8 % 2 ^ 64)

/-- The 32 SHA-256 digest bytes of a byte string. -/
def sha256Digest (msg : List ℕ) : List ℕ :=
  let init : List ℕ :=
    [1779033703, 3144134277, 1013904242, 2773480762,
    1359893119, 2600822924, 528734635, 1541459225]
  ((chunks 64 (sha256Pad msg)).foldl sha256Block init).foldr
    (fun wd acc => natBEBytes 4 wd ++ acc) []

/-- `hashlib.sha256(msg).hexdigest()`. -/
def sha256Hex (msg : List ℕ) : String := bytesToHex (sha256Digest msg)

/-- `EnhancedHypergraphBuilderV2._generate_node_id`: the node type value,
an underscore, then the first 8 hex digits of the MD5 of the lowercased
content. -/
def v2_generate_node_id (content : String) (node_type : NodeType) : String :=
  let content_hash := strTake (md5Hex (strBytes (pyLower content))) 8
  node_type.value ++ "_" ++ content_hash

/-! ## Graph extraction agent (`graph_extraction_agent.py`) -/

/-- A hypernode dict as consumed by `HypergraphParser`: the typed fields
the parser reads (absent keys are `none`), plus the remaining free-form
entries of the dict (timestamps, sources, metadata), which the id
generator and the validators never read. -/
structure GEHypernode where
  content : Option String
  node_type : Option String
  confidence : Option ℚ
  extra : List (String × String)
  deriving DecidableEq, Repr

/-- A hyperedge dict as consumed by `HypergraphParser`. -/
structure GEHyperedge where
  source_node_id : Option String
  target_node_id : Option String
  edge_type : Option String
  confidence : Option ℚ
  extra : List (String × String)
  deriving DecidableEq, Repr

/-- `self.supported_node_types` (a 10-element set). -/
def geSupportedNodeTypes : List String :=
  ["person", "organization", "concept", "skill", "need",
   "behavioral_pattern", "personality_trait", "financial_instrument",
   "business_concept", "topic"]

/-- `self.supported_edge_types` (a 13-element set). -/
def geSupportedEdgeTypes : List String :=
  ["demonstrates", "relates_to", "influences", "requires", "enables",
   "part_of", "similar_to", "works_with", "specializes_in", "interviews",
   "discusses", "affiliated_with", "uses"]

/-- An `ExtractedNode` record (free-form `attributes`/`metadata` maps
omitted). -/
structure ExtractedNode where
  id : String
  customer_id : String
  label : String
  node_type : String
  confidence : ℚ
  source_file : String
  created_at : String
  deriving DecidableEq, Repr

/-- An `ExtractedEdge` record (free-form `attributes`/`metadata` maps
omitted). -/
structure ExtractedEdge where
  id : String
  customer_id : String
  source_node_id : String
  target_node_id : String
  relationship_type : String
  weight : ℚ
  source_file : String
  created_at : String
  deriving DecidableEq, Repr

/-- `HypergraphParser._generate_node_id`: `node_` followed by the first
16 hex digits of the SHA-256 of `customer_id:node_type:content`. -/
def ge_generate_node_id (hypernode : GEHypernode) (customer_id : String) : String :=
  let content := hypernode.content.getD ""
  let node_type := hypernode.node_type.getD "concept"
  let hash_value :=
    strTake (sha256Hex (strBytes (customer_id ++ ":" ++ node_type ++ ":" ++ content))) 16
  "node_" ++ hash_value

/-- `HypergraphParser._generate_edge_id`: `edge_` followed by the first
16 hex digits of the SHA-256 of `customer_id:source:target:edge_type`. -/
def ge_generate_edge_id (hyperedge : GEHyperedge) (customer_id : String) : String :=
  let source_id := hyperedge.source_node_id.getD ""
  let target_id := hyperedge.target_node_id.getD ""
  let edge_type := hyperedge.edge_type.getD "relates_to"
  let hash_value :=
    strTake (sha256Hex (strBytes
      (customer_id ++ ":" ++ source_id ++ ":" ++ target_id ++ ":" ++ edge_type))) 16
  "edge_" ++ hash_value

/-- The node built by one iteration of `HypergraphParser._extract_nodes`:
unknown node types collapse to `concept`, confidence is clamped to
`[0, 1]`, and an empty stripped content falls back to a label derived
from the node id. -/
def geBuildNode (customer_id source_file current_time : String)
    (hypernode : GEHypernode) : ExtractedNode :=
  let node_id := ge_generate_node_id hypernode customer_id
  let nt0 := pyLower (hypernode.node_type.getD "concept")
  let node_type := if nt0 ∈ geSupportedNodeTypes then nt0 else "concept"
  let confidence := max 0.0 (min 1.0 (hypernode.confidence.getD 0.5))
  let stripped := pyStrip (hypernode.content.getD "")
  { id := node_id
    customer_id := customer_id
    label := if stripped = "" then "Node_" ++ strTake node_id 8 else stripped
    node_type := node_type
    confidence := confidence
    source_file := source_file
    created_at := current_time }

/-- `HypergraphParser._extract_nodes`. -/
def ge_extract_nodes (hypernodes : List GEHypernode)
    (customer_id source_file current_time : String) : List ExtractedNode :=
  hypernodes.map (geBuildNode customer_id source_file current_time)

/-- The edge built by one iteration of `HypergraphParser._extract_edges`
(once the endpoint ids are known to be non-empty). -/
def geBuildEdge (customer_id source_file current_time : String)
    (hyperedge : GEHyperedge) : ExtractedEdge :=
  let edge_id := ge_generate_edge_id hyperedge customer_id
  let et0 := pyLower (hyperedge.edge_type.getD "relates_to")
  let edge_type := if et0 ∈ geSupportedEdgeTypes then et0 else "relates_to"
  let weight := max 0.0 (min 1.0 (hyperedge.confidence.getD 0.5))
  { id := edge_id
    customer_id := customer_id
    source_node_id := hyperedge.source_node_id.getD ""
    target_node_id := hyperedge.target_node_id.getD ""
    relationship_type := edge_type
    weight := weight
    source_file := source_file
    created_at := current_time }

/-- `HypergraphParser._extract_edges`: a hyperedge whose source or
target node id is missing or empty is skipped (`continue`). -/
def ge_extract_edges (hyperedges : List GEHyperedge)
    (customer_id source_file current_time : String) : List ExtractedEdge :=
  hyperedges.filterMap fun hyperedge =>
    if hyperedge.source_node_id.getD "" = "" ∨ hyperedge.target_node_id.getD "" = ""
    then none
    else some (geBuildEdge customer_id source_file current_time hyperedge)

/-! ## S3 storage retry (`S3GraphStorage._store_json_with_retry`) -/

/-- An observable event of the retry loop: the `put_object` call of the
1-based attempt `n`, or a `time.sleep` of `d` seconds. -/
inductive RetryEvent
  | attempt (n : ℕ)
  | sleep (d : ℚ)
  deriving DecidableEq, Repr

/-- Outcome of `_store_json_with_retry`: normal return, or a raised
`S3StorageError`. -/
inductive StoreOutcome
  | stored
  | s3StorageError
  deriving DecidableEq, Repr

/-- `self.max_retries = 3`. -/
def maxRetries : ℕ := 3

/-- `self.base_delay = 1.0`. -/
def baseDelay : ℚ := 1.0

/-- The `for attempt in range(self.max_retries)` loop: `succeeds k`
tells whether the 0-based attempt `k` of `put_object` succeeds; on
failure the loop re-raises at the last attempt, otherwise sleeps
`base_delay * 2 ** attempt` and retries. -/
def storeRetryGo (succeeds : ℕ → Bool) : ℕ → ℕ → List RetryEvent × StoreOutcome
  | _, 0 => ([], .s3StorageError)
  | k, r + 1 =>
    if succeeds k then ([.attempt (k + 1)], .stored)
    else if k = maxRetries - 1 then ([.attempt (k + 1)], .s3StorageError)
    else
      let rest := storeRetryGo succeeds (k + 1) r
      (.attempt (k + 1) :: .sleep (baseDelay * 2 ^ k) :: rest.1, rest.2)

/-- `S3GraphStorage._store_json_with_retry`, as its trace of attempts
and sleeps together with its outcome. -/
def store_json_with_retry (succeeds : ℕ → Bool) : List RetryEvent × StoreOutcome :=
  storeRetryGo succeeds 0 maxRetries

/-! ## JSON values and `json.loads`

The needs-analysis agent feeds LLM output through `json.loads`; the
library is modelled by an executable parser over an inductive value type
(numbers as rationals; `NaN`/`Infinity` extensions not modelled). -/

/-- A parsed JSON value. -/
inductive Json
  | null
  | bool (b : Bool)
  | num (q : ℚ)
  | str (s : String)
  | arr (l : List Json)
  | obj (m : List (String × Json))

/-- JSON whitespace. -/
def jsonWS (c : Char) : Bool := c = ' ' || c = '\t' || c = '\n' || c = '\r'

/-- Value of a digit run. -/
def digitsVal (ds : List Char) : ℕ :=
  ds.foldl (fun a c => a * 10 + (c.toNat - 48)) 0

/-- Parse the body of a JSON string literal (after the opening quote),
returning the decoded characters and the remaining input. -/
def jsonParseStrGo : ℕ → List Char → Option (List Char × List Char)
  | 0, _ => none
  | _ + 1, [] => none
  | fuel + 1, c :: rest =>
    if c = '"' then some ([], rest)
    else if c = '\\' then
      match rest with
      | [] => none
      | e :: rest2 =>
        let dec : Option (Char × List Char) :=
          if e = '"' then some ('"', rest2)
          else if e = '\\' then some ('\\', rest2)
          else if e = '/' then some ('/', rest2)
          else if e = 'b' then some ('\x08', rest2)
          else if e = 'f' then some ('\x0c', rest2)
          else if e = 'n' then some ('\n', rest2)
          else if e = 'r' then some ('\r', rest2)
          else if e = 't' then some ('\t', rest2)
          else if e = 'u' then
            let hs := rest2.take 4
            if hs.length = 4 ∧ hs.all (fun h => h.isDigit || ('a' ≤ h ∧ h ≤ 'f') || ('A' ≤ h ∧ h ≤ 'F')) then
              let hv := hs.foldl
                (fun a h => a * 16 + (if h.isDigit then h.toNat - 48
                  else if 'a' ≤ h then h.toNat - 87 else h.toNat - 55)) 0
              some (Char.ofNat hv, rest2.drop 4)
            else none
          else none
        match dec with
        | some (d, rest3) =>
          match jsonParseStrGo fuel rest3 with
          | some (s, rem) => some (d :: s, rem)
          | none => none
        | none => none
    else
      match jsonParseStrGo fuel rest with
      | some (s, rem) => some (c :: s, rem)
      | none => none

/-- Parse a JSON number starting at the input head. -/
def jsonParseNum (cs : List Char) : Option (ℚ × List Char) :=
  let neg : Bool := cs.head? = some '-'
  let cs1 := if neg then cs.tail else cs
  let ds := cs1.takeWhile Char.isDigit
  match ds with
  | [] => none
  | _ =>
    let cs2 := cs1.drop ds.length
    let (fs, cs3) :=
      match cs2 with
      | '.' :: r => (r.takeWhile Char.isDigit, r.drop (r.takeWhile Char.isDigit).length)
      | _ => ([], cs2)
    if cs2 ≠ cs3 ∧ fs.isEmpty then none
    else
      let (hasExp, cs4) := match cs3 with
        | 'e' :: r => (true, r)
        | 'E' :: r => (true, r)
        | _ => (false, cs3)
      if hasExp then
        let (eneg, cs5) := match cs4 with
          | '-' :: r => (true, r)
          | '+' :: r => (false, r)
          | _ => (false, cs4)
        let es := cs5.takeWhile Char.isDigit
        match es with
        | [] => none
        | _ =>
          let mant : ℚ := ((digitsVal ds : ℚ) + (digitsVal fs : ℚ) / 10 ^ fs.length)
          let scaled := if eneg then mant / 10 ^ digitsVal es else mant * 10 ^ digitsVal es
          some ((if neg then -scaled else scaled), cs5.drop es.length)
      else
        let v : ℚ := (digitsVal ds : ℚ) + (digitsVal fs : ℚ) / 10 ^ fs.length
        some ((if neg then -v else v), cs3)

mutual

/-- Parse one JSON value (fuel-driven recursive descent). -/
def jsonParseVal : ℕ → List Char → Option (Json × List Char)
  | 0, _ => none
  | fuel + 1, cs =>
    match cs.dropWhile jsonWS with
    | [] => none
    | c :: rest =>
      if c = 'n' then
        if ['u', 'l', 'l'].isPrefixOf rest then some (.null, rest.drop 3) else none
      else if c = 't' then
        if ['r', 'u', 'e'].isPrefixOf rest then some (.bool true, rest.drop 3) else none
      else if c = 'f' then
        if ['a', 'l', 's', 'e'].isPrefixOf rest then some (.bool false, rest.drop 4) else none
      else if c = '"' then
        match jsonParseStrGo (rest.length + 1) rest with
        | some (s, rem) => some (.str (String.mk s), rem)
        | none => none
      else if c = '[' then
        match rest.dropWhile jsonWS with
        | ']' :: rem => some (.arr [], rem)
        | _ =>
          match jsonParseArrItems fuel rest with
          | some (l, rem) => some (.arr l, rem)
          | none => none
      else if c = '{' then
        match rest.dropWhile jsonWS with
        | '}' :: rem => some (.obj [], rem)
        | _ =>
          match jsonParseObjItems fuel rest with
          | some (m, rem) => some (.obj m, rem)
          | none => none
      else if c = '-' ∨ c.isDigit then
        match jsonParseNum (c :: rest) with
        | some (q, rem) => some (.num q, rem)
        | none => none
      else none

/-- Parse the nonempty item list of a JSON array (after `[`). -/
def jsonParseArrItems : ℕ → List Char → Option (List Json × List Char)
  | 0, _ => none
  | fuel + 1, cs =>
    match jsonParseVal fuel cs with
    | none => none
    | some (v, rem) =>
      match rem.dropWhile jsonWS with
      | ',' :: rem2 =>
        match jsonParseArrItems fuel rem2 with
        | some (l, rem3) => some (v :: l, rem3)
        | none => none
      | ']' :: rem2 => some ([v], rem2)
      | _ => none

/-- Parse the nonempty member list of a JSON object (after `{`);
duplicate keys keep the last value at the first position, as Python
dicts do. -/
def jsonParseObjItems : ℕ → List Char → Option (List (String × Json) × List Char)
  | 0, _ => none
  | fuel + 1, cs =>
    match cs.dropWhile jsonWS with
    | '"' :: rest =>
      match jsonParseStrGo (rest.length + 1) rest with
      | none => none
      | some (k, rem) =>
        match rem.dropWhile jsonWS with
        | ':' :: rem2 =>
          match jsonParseVal fuel rem2 with
          | none => none
          | some (v, rem3) =>
            match rem3.dropWhile jsonWS with
            | ',' :: rem4 =>
              match jsonParseObjItems fuel rem4 with
              | some (m, rem5) =>
                match dictFind m (String.mk k) with
                | some v2 =>
                  some ((String.mk k, v2) :: m.filter (fun p => p.1 ≠ String.mk k), rem5)
                | none => some ((String.mk k, v) :: m, rem5)
              | none => none
            | '}' :: rem4 => some ([(String.mk k, v)], rem4)
            | _ => none
        | _ => none
    | _ => none

end

/-- `json.loads`: parse a complete JSON document (trailing whitespace
only), `none` modelling a raised `JSONDecodeError`. -/
def jsonLoads (s : String) : Option Json :=
  match jsonParseVal (s.length + 1) s.data with
  | some (v, rem) => if (rem.dropWhile jsonWS).isEmpty then some v else none
  | none => none

/-! ## Needs analysis agent (`needs_analysis_agent.py`) -/

/-- A Python exception relevant to the needs-analysis control flow. -/
inductive PyErr
  | typeError
  | valueError
  | attributeError
  deriving DecidableEq, Repr

/-- The `HumanNeed` enum. -/
inductive HumanNeed
  | certainty | variety | significance | connection | growth | contribution
  deriving DecidableEq, Repr

/-- `HumanNeed.value`. -/
def HumanNeed.value : HumanNeed → String
  | .certainty => "certainty"
  | .variety => "variety"
  | .significance => "significance"
  | .connection => "connection"
  | .growth => "growth"
  | .contribution => "contribution"

/-- Iteration order of `for need in HumanNeed` (declaration order). -/
def HumanNeed.all : List HumanNeed :=
  [.certainty, .variety, .significance, .connection, .growth, .contribution]

/-- The `self.needs_indicators` table:
`(keywords, phrases, context_clues)` per need. -/
def needsIndicators : HumanNeed → List String × List String × List String
  | .certainty =>
    (["security", "stable", "predictable", "safe", "routine", "control", "plan", "structure"],
     ["need to know", "want certainty", "feel secure", "have control", "planned approach"],
     ["risk aversion", "detailed planning", "systematic approach"])
  | .variety =>
    (["adventure", "new", "different", "change", "explore", "variety", "diverse", "exciting"],
     ["try new things", "love variety", "get bored easily", "need change", "different experiences"],
     ["career changes", "multiple interests", "travel experiences"])
  | .significance =>
    (["important", "special", "unique", "recognition", "achievement", "success", "impact", "leader"],
     ["make a difference", "be recognized", "stand out", "achieve something", "be remembered"],
     ["leadership roles", "awards", "achievements", "public speaking"])
  | .connection =>
    (["family", "friends", "team", "community", "relationship", "together", "belong", "love"],
     ["work with others", "part of team", "close relationships", "feel connected", "belong to"],
     ["team projects", "mentoring", "collaboration", "family mentions"])
  | .growth =>
    (["learn", "develop", "grow", "improve", "progress", "evolve", "better", "skills"],
     ["keep learning", "personal growth", "develop skills", "get better", "continuous improvement"],
     ["education", "training", "skill development", "career progression"])
  | .contribution =>
    (["help", "serve", "give", "contribute", "impact", "difference", "society", "world"],
     ["help others", "give back", "make impact", "serve community", "contribute to"],
     ["volunteering", "social causes", "mentoring others", "community service"])

/-- `InterviewNeedsAnalyzer.analyze_needs_keywords`: per need, 40%
keyword counting (normalised by words/100), 30% phrase hits, 30%
context-clue hits, capped at 1. -/
def analyze_needs_keywords (content : String) : List (HumanNeed × ℚ) :=
  let content_lower := pyLower content
  let word_count := (pyWords content).length
  HumanNeed.all.map fun need =>
    let ind := needsIndicators need
    let keywords := ind.1
    let phrases := ind.2.1
    let context_clues := ind.2.2
    let keyword_matches : ℕ :=
      (keywords.map (fun k => countSub content_lower.data k.data)).sum
    let keyword_score : ℚ :=
      min ((keyword_matches : ℚ) / max ((word_count : ℚ) / 100) 1) 1.0 * 0.4
    let phrase_matches : ℕ :=
      (phrases.filter (fun p => strContains content_lower p)).length
    let phrase_score : ℚ :=
      min ((phrase_matches : ℚ) / max ((phrases.length : ℚ)) 1) 1.0 * 0.3
    let context_matches : ℕ :=
      (context_clues.filter (fun p => strContains content_lower p)).length
    let context_score : ℚ :=
      min ((context_matches : ℚ) / max ((context_clues.length : ℚ)) 1) 1.0 * 0.3
    (need, min (keyword_score + phrase_score + context_score) 1.0)

/-- Python `float(s)` on a string (ASCII decimal model; `nan`/`inf`
spellings not modelled): optional sign, digits with optional fraction
(either side of the dot may be empty, not both) and optional exponent. -/
def parsePyFloat (s : String) : Option ℚ :=
  let t := (s.data.dropWhile pyWS).reverse.dropWhile pyWS |>.reverse
  let signed? : Bool := t.head? = some '+' ∨ t.head? = some '-'
  let neg : Bool := t.head? = some '-'
  let t1 := if signed? then t.tail else t
  let ds := t1.takeWhile Char.isDigit
  let t2 := t1.drop ds.length
  let (fs, t3) := match t2 with
    | '.' :: r => (r.takeWhile Char.isDigit, r.drop (r.takeWhile Char.isDigit).length)
    | _ => ([], t2)
  if ds.isEmpty ∧ fs.isEmpty ∧ t2 ≠ t3 then none
  else if ds.isEmpty ∧ t2 = t3 then none
  else
    let mant : ℚ := (digitsVal ds : ℚ) + (digitsVal fs : ℚ) / 10 ^ fs.length
    let signed := if neg then -mant else mant
    match t3 with
    | [] => some signed
    | 'e' :: r | 'E' :: r =>
      let (eneg, r1) := match r with
        | '+' :: r2 => (false, r2)
        | '-' :: r2 => (true, r2)
        | _ => (false, r)
      let es := r1.takeWhile Char.isDigit
      if es.isEmpty ∨ ¬(r1.drop es.length).isEmpty then none
      else some (if eneg then signed / 10 ^ digitsVal es else signed * 10 ^ digitsVal es)
    | _ => none

/-- `float(x)` on a JSON value: numbers and booleans convert, numeric
strings parse, other strings raise `ValueError`, anything else raises
`TypeError`. -/
def floatOfJson : Json → Except PyErr ℚ
  | .num q => .ok q
  | .bool b => .ok (if b then 1 else 0)
  | .str s =>
    match parsePyFloat s with
    | some q => .ok q
    | none => .error .valueError
  | _ => .error .typeError

/-- The fallback scores of `analyze_needs_with_llm` when response
parsing fails (`fallback_scores[i % 6]` in enum order). -/
def llmFallbackScores : List (HumanNeed × ℚ) :=
  [(.certainty, 0.3), (.variety, 0.4), (.significance, 0.5),
   (.connection, 0.6), (.growth, 0.7), (.contribution, 0.2)]

/-- The per-need loop of `analyze_needs_with_llm`: present keys are
converted through `float` and clamped to `[0, 1]` (a dict value is read
through its `score` key, default `0.0`), missing keys default to `0.3`;
a `ValueError` (`.ok none`) switches the whole result to the fallback
scores, a `TypeError` propagates. -/
def llmScoresLoop (fields : List (String × Json)) :
    List HumanNeed → Except PyErr (Option (List (HumanNeed × ℚ)))
  | [] => .ok (some [])
  | n :: rest =>
    match dictFind fields n.value with
    | none =>
      match llmScoresLoop fields rest with
      | .error e => .error e
      | .ok none => .ok none
      | .ok (some l) => .ok (some ((n, (0.3 : ℚ)) :: l))
    | some v =>
      let raw := match v with
        | .obj sub => (dictFind sub "score").getD (.num 0.0)
        | _ => v
      match floatOfJson raw with
      | .error .valueError => .ok none
      | .error e => .error e
      | .ok x =>
        match llmScoresLoop fields rest with
        | .error e => .error e
        | .ok none => .ok none
        | .ok (some l) => .ok (some ((n, max 0.0 (min x 1.0)) :: l))

/-- Does the Python expression `needle in j` hold, for the container
kinds for which it does not raise?  (Strings test substrings, arrays
test membership by string equality.) -/
def jsonContainsStr (j : Json) (needle : String) : Bool :=
  match j with
  | .str s => strContains s needle
  | .arr l => l.any (fun x => match x with | .str t => t = needle | _ => false)
  | .obj m => (dictFind m needle).isSome
  | _ => false

/-- The response-parsing part of
`InterviewNeedsAnalyzer.analyze_needs_with_llm`, as a function of the
`generation` field of the Bedrock response body: JSON parse failure
falls back to the varied default scores; a parsed non-dict raises
`TypeError` through the membership test or the indexing. -/
def analyze_needs_with_llm_scores (generation : String) :
    Except PyErr (List (HumanNeed × ℚ)) :=
  match jsonLoads generation with
  | none => .ok llmFallbackScores
  | some (.obj fields) =>
    match llmScoresLoop fields HumanNeed.all with
    | .error e => .error e
    | .ok none => .ok llmFallbackScores
    | .ok (some l) => .ok l
  | some (.str s) =>
    if HumanNeed.all.any (fun n => strContains s n.value) then .error .typeError
    else .ok (HumanNeed.all.map (fun n => (n, (0.3 : ℚ))))
  | some (.arr l) =>
    if HumanNeed.all.any (fun n => jsonContainsStr (.arr l) n.value) then .error .typeError
    else .ok (HumanNeed.all.map (fun n => (n, (0.3 : ℚ))))
  | some _ => .error .typeError

/-- `InterviewNeedsAnalyzer.combine_needs_scores`: for every need, 30%
of the keyword score plus 70% of the LLM score, each defaulting to 0. -/
def combine_needs_scores (keyword_scores llm_scores : List (HumanNeed × ℚ)) :
    List (HumanNeed × ℚ) :=
  HumanNeed.all.map fun need =>
    let keyword_score := (dictFind keyword_scores need).getD 0.0
    let llm_score := (dictFind llm_scores need).getD 0.0
    (need, 0.3 * keyword_score + 0.7 * llm_score)

/-- The `needs_scores` produced by
`InterviewNeedsAnalyzer.analyze_needs_from_interview` (its
`final_scores`), with the Bedrock generation as a parameter. -/
def analyze_needs_from_interview_scores (content generation : String) :
    Except PyErr (List (HumanNeed × ℚ)) :=
  match analyze_needs_with_llm_scores generation with
  | .error e => .error e
  | .ok llm_scores => .ok (combine_needs_scores (analyze_needs_keywords content) llm_scores)

/-! ## The lambda-handler scoring path
(`analyze_human_needs` / `enhanced_response_parser`) -/

/-- The `needs` list literal of `extract_scores_from_text` (the
`HumanNeed` values as strings). -/
def allNeedStrings : List String :=
  ["certainty", "variety", "significance", "connection", "growth", "contribution"]

/-- Match attempt for `rf"{need}:?\s*(\d+\.?\d*)"` at one position of the
(lowercased) text: the literal need, an optional colon, whitespace, then
a digit run with optional fraction; returns the captured value. -/
def scoreMatchAt (need : List Char) (cs : List Char) : Option ℚ :=
  if need.isPrefixOf cs then
    let rest0 := cs.drop need.length
    let rest1 := match rest0 with | ':' :: r => r | _ => rest0
    let rest2 := rest1.dropWhile pyWS
    let ds := rest2.takeWhile Char.isDigit
    match ds with
    | [] => none
    | _ =>
      let rest3 := rest2.drop ds.length
      let fs := match rest3 with
        | '.' :: r => r.takeWhile Char.isDigit
        | _ => []
      some ((digitsVal ds : ℚ) + (digitsVal fs : ℚ) / 10 ^ fs.length)
  else none

/-- `re.search` scan for `scoreMatchAt`: first matching position wins. -/
def scoreSearchGo (need : List Char) : ℕ → List Char → Option ℚ
  | 0, _ => none
  | _ + 1, [] => scoreMatchAt need []
  | fuel + 1, cs@(_ :: rest) =>
    match scoreMatchAt need cs with
    | some q => some q
    | none => scoreSearchGo need fuel rest

/-- `extract_scores_from_text`: per need, regex-search the response for
`need: <number>` (case-insensitively), divide values above 1 by 10, and
clamp to `[0, 1]`; needs without a match are absent. -/
def extract_scores_from_text (text : String) : List (String × ℚ) :=
  let tl := (pyLower text).data
  allNeedStrings.foldl
    (fun m need =>
      match scoreSearchGo need.data (tl.length + 1) tl with
      | some score =>
        let score1 := if 1 < score then score / 10 else score
        dictInsert m need (min (max score1 0.0) 1.0)
      | none => m)
    []

/-- `get_content_aware_fallback_score` (the `themes` parameter is unused
in the source body). -/
def get_content_aware_fallback_score (need content_type : String)
    (_themes : List String) : ℚ :=
  if content_type = "financial_advice" then
    (dictFind [("certainty", (0.8 : ℚ)), ("growth", 0.6), ("significance", 0.5),
      ("contribution", 0.5), ("connection", 0.4), ("variety", 0.3)] need).getD 0.4
  else if content_type = "interview_transcript" then
    (dictFind [("significance", (0.8 : ℚ)), ("growth", 0.7), ("connection", 0.6),
      ("variety", 0.5), ("certainty", 0.4), ("contribution", 0.4)] need).getD 0.4
  else 0.4

/-- `base_scores[k] += d` for a key known to be present. -/
def bumpScore (m : List (String × ℚ)) (k : String) (d : ℚ) : List (String × ℚ) :=
  dictInsert m k ((dictFind m k).getD 0 + d)

/-- The per-theme adjustment loop of `get_content_aware_scores`. -/
def themeAdjust (m : List (String × ℚ)) (theme : String) : List (String × ℚ) :=
  let tl := pyLower theme
  if strContains tl "leadership" then
    bumpScore (bumpScore m "significance" 0.2) "connection" 0.1
  else if strContains tl "innovation" || strContains tl "technology" then
    bumpScore (bumpScore m "growth" 0.2) "variety" 0.1
  else if strContains tl "risk" || strContains tl "security" then
    bumpScore m "certainty" 0.2
  else m

/-- `get_content_aware_scores` (the `entities` parameter is unused in
the source body): content-type base scores, theme bumps, then clamping
to `[0, 1]`. -/
def get_content_aware_scores (content_type : String) (themes : List String) :
    List (String × ℚ) :=
  let base : List (String × ℚ) :=
    [("certainty", 0.4), ("variety", 0.4), ("significance", 0.4),
     ("connection", 0.4), ("growth", 0.4), ("contribution", 0.4)]
  let base :=
    if content_type = "financial_advice" then
      dictInsert (dictInsert (dictInsert base "certainty" 0.8) "growth" 0.6) "significance" 0.5
    else if content_type = "interview_transcript" then
      dictInsert (dictInsert (dictInsert (dictInsert base "significance" 0.8)
        "growth" 0.7) "connection" 0.6) "variety" 0.5
    else base
  let adjusted := themes.foldl themeAdjust base
  adjusted.map (fun p => (p.1, min (max p.2 0.0) 1.0))

/-- `re.search(r'\{.*\}', s, re.DOTALL)`: the span from the first
opening brace to the last closing brace after it, if any. -/
def braceSpan (s : String) : Option String :=
  let cs := s.data
  match cs.findIdx? (fun c => c = '{'),
        (cs.reverse.findIdx? (fun c => c = '}')).map (fun k => cs.length - 1 - k) with
  | some i, some j => if i < j then some (String.mk ((cs.drop i).take (j - i + 1))) else none
  | _, _ => none

/-- Are all values of a needs-scores dict mutually comparable under
Python `sorted` (all numeric, booleans included, or all strings)? -/
def jsonValuesComparable (m : List (String × Json)) : Bool :=
  m.all (fun p => match p.2 with | .num _ => true | .bool _ => true | _ => false) ||
  m.all (fun p => match p.2 with | .str _ => true | _ => false)

/-- The `needs_scores` field computed by `enhanced_response_parser`:
try JSON (through the brace-span regex first), fall back to text-based
extraction, then fill every missing need with the content-aware
fallback.  A non-dict `needs_scores` value raises (`TypeError` on the
membership test or item assignment, `AttributeError` on the later
`.items()` sort), as does a dict whose values the dominant-needs sort
cannot compare. -/
def enhanced_response_parser_scores (llm_response content_type : String)
    (themes : List String) : Except PyErr (List (String × Json)) :=
  let parsed : Option Json :=
    match braceSpan llm_response with
    | some sub => jsonLoads sub
    | none => jsonLoads llm_response
  let scores0 : Json :=
    match parsed with
    | some (.obj fields) => (dictFind fields "needs_scores").getD (.obj [])
    | _ => .obj ((extract_scores_from_text llm_response).map (fun p => (p.1, Json.num p.2)))
  match scores0 with
  | .obj m =>
    let filled := allNeedStrings.foldl
      (fun m need =>
        if (dictFind m need).isSome then m
        else dictInsert m need
          (.num (get_content_aware_fallback_score need content_type themes)))
      m
    if jsonValuesComparable filled then .ok filled else .error .typeError
  | .str s =>
    if allNeedStrings.all (fun n => strContains s n) then .error .attributeError
    else .error .typeError
  | .arr l =>
    if allNeedStrings.all (fun n => jsonContainsStr (.arr l) n) then .error .attributeError
    else .error .typeError
  | _ => .error .typeError

/-- The `needs_scores` produced by `analyze_human_needs` — the function
the lambda handler actually calls — as a function of the Bedrock
`generation` string: the enhanced parser result, or the content-aware
scores when any exception was raised. -/
def analyze_human_needs_scores (generation content_type : String)
    (themes : List String) : List (String × Json) :=
  match enhanced_response_parser_scores generation content_type themes with
  | .ok m => m
  | .error _ => (get_content_aware_scores content_type themes).map
      (fun p => (p.1, Json.num p.2))

/-- Numeric projection of a JSON value (for reading scores back). -/
def Json.asNum : Json → Option ℚ
  | .num q => some q
  | _ => none

/-! # Theorems

First, general lemmas about the Python-dict model and list folds; then
one theorem per specification claim, with witnesses and counterexamples. -/

section DictLemmas

variable {A B : Type} [DecidableEq A] {m : List (A × B)} {k : A} {v : B} {p q : A × B}

/-- A successful dict lookup returns a pair of the list. -/
theorem dictFind_mem (h : dictFind m k = some v) : (k, v) ∈ m := by
  induction m with
  | nil => simp [dictFind] at h
  | cons hd tl ih =>
    obtain ⟨k0, v0⟩ := hd
    by_cases hk : k0 = k
    · subst hk
      simp only [dictFind, if_pos] at h
      injection h with h
      subst h
      exact List.mem_cons_self _ _
    · simp only [dictFind, if_neg hk] at h
      exact List.mem_cons_of_mem _ (ih h)

/-- A dict lookup fails exactly when the key is absent. -/
theorem dictFind_eq_none : dictFind m k = none ↔ k ∉ m.map Prod.fst := by
  induction m with
  | nil => simp [dictFind]
  | cons hd tl ih =>
    obtain ⟨k0, v0⟩ := hd
    by_cases hk : k0 = k
    · subst hk
      simp [dictFind]
    · have hne : k ≠ k0 := fun hh => hk hh.symm
      simp [dictFind, hk, ih, hne]

/-- Every pair of an updated dict is an old pair or the new binding. -/
theorem mem_dictInsert (h : p ∈ dictInsert m k v) : p ∈ m ∨ p = (k, v) := by
  induction m with
  | nil => simpa [dictInsert] using h
  | cons hd tl ih =>
    obtain ⟨k0, v0⟩ := hd
    by_cases hk : k0 = k
    · subst hk
      simp only [dictInsert, if_pos, List.mem_cons] at h
      rcases h with h | h
      · exact Or.inr (by simp [h])
      · exact Or.inl (List.mem_cons_of_mem _ h)
    · simp only [dictInsert, if_neg hk, List.mem_cons] at h
      rcases h with h | h
      · exact Or.inl (by simp [h])
      · rcases ih h with h2 | h2
        · exact Or.inl (List.mem_cons_of_mem _ h2)
        · exact Or.inr h2

/-- After an update, some pair carries the key and the new value. -/
theorem dictInsert_self (m : List (A × B)) (k : A) (v : B) :
    ∃ p ∈ dictInsert m k v, p.1 = k ∧ p.2 = v := by
  induction m with
  | nil => exact ⟨(k, v), by simp [dictInsert], rfl, rfl⟩
  | cons hd tl ih =>
    obtain ⟨k0, v0⟩ := hd
    by_cases hk : k0 = k
    · exact ⟨(k0, v), by simp [dictInsert, hk], hk, rfl⟩
    · obtain ⟨p, hp, hp1, hp2⟩ := ih
      exact ⟨p, by simp [dictInsert, hk, hp], hp1, hp2⟩

/-- The key list of an updated dict: unchanged when the key was present,
extended by the key otherwise. -/
theorem dictInsert_keys (m : List (A × B)) (k : A) (v : B) :
    (dictInsert m k v).map Prod.fst =
      if k ∈ m.map Prod.fst then m.map Prod.fst else m.map Prod.fst ++ [k] := by
  induction m with
  | nil => simp [dictInsert]
  | cons hd tl ih =>
    obtain ⟨k0, v0⟩ := hd
    by_cases hk : k0 = k
    · subst hk
      simp [dictInsert]
    · have hne : k ≠ k0 := fun hh => hk hh.symm
      by_cases hmem : k ∈ tl.map Prod.fst <;>
        simp [dictInsert, hk, ih, hmem, hne]

/-- An update keeps every key, and at each kept key the value is the old
one or the new one. -/
theorem mem_dictInsert_of_mem (h : p ∈ m) (k : A) (v : B) :
    ∃ p2 ∈ dictInsert m k v, p2.1 = p.1 ∧ (p2.2 = p.2 ∨ p2.2 = v) := by
  induction m with
  | nil => simp at h
  | cons hd tl ih =>
    obtain ⟨k0, v0⟩ := hd
    by_cases hk : k0 = k
    · rcases List.mem_cons.mp h with h | h
      · exact ⟨(k0, v), by simp [dictInsert, hk], by simp [h], Or.inr rfl⟩
      · exact ⟨p, by simp [dictInsert, hk, h], rfl, Or.inl rfl⟩
    · rcases List.mem_cons.mp h with h | h
      · exact ⟨(k0, v0), by simp [dictInsert, hk], by simp [h], Or.inl (by simp [h])⟩
      · obtain ⟨p2, hp2, hk2, hv2⟩ := ih h
        exact ⟨p2, by simp [dictInsert, hk, hp2], hk2, hv2⟩

/-- Updating at an absent key appends the binding. -/
theorem dictInsert_of_not_mem (hk : k ∉ m.map Prod.fst) :
    dictInsert m k v = m ++ [(k, v)] := by
  induction m with
  | nil => simp [dictInsert]
  | cons hd tl ih =>
    obtain ⟨k0, v0⟩ := hd
    simp only [List.map_cons, List.mem_cons, not_or] at hk
    have hne : ¬k0 = k := fun hh => hk.1 hh.symm
    simp [dictInsert, hne, ih hk.2]

/-- Pairs at other keys survive an update. -/
theorem dictInsert_preserves (h : p ∈ m) (hne : p.1 ≠ k) (v : B) :
    p ∈ dictInsert m k v := by
  induction m with
  | nil => simp at h
  | cons hd tl ih =>
    obtain ⟨k0, v0⟩ := hd
    by_cases hk : k0 = k
    · rcases List.mem_cons.mp h with h1 | h1
      · exact absurd (by rw [h1, hk]) hne
      · simp [dictInsert, hk, h1]
    · rcases List.mem_cons.mp h with h1 | h1
      · simp [dictInsert, hk, h1]
      · simp [dictInsert, hk, ih h1]

/-- Updated dicts keep nodup keys. -/
theorem dictInsert_keys_nodup (hB : (m.map Prod.fst).Nodup) :
    ((dictInsert m k v).map Prod.fst).Nodup := by
  rw [dictInsert_keys]
  by_cases hk : k ∈ m.map Prod.fst
  · rwa [if_pos hk]
  · rw [if_neg hk]
    simp [List.nodup_append, hB, hk]

end DictLemmas

/-- With nodup keys, pairs are determined by their key. -/
theorem keys_nodup_unique {A B : Type} {m : List (A × B)} {p q : A × B}
    (hn : (m.map Prod.fst).Nodup) (hp : p ∈ m) (hq : q ∈ m)
    (hk : p.1 = q.1) : p = q := by
  induction m with
  | nil => simp at hp
  | cons hd tl ih =>
    rw [List.map_cons, List.nodup_cons] at hn
    rcases List.mem_cons.mp hp with hp1 | hp1 <;> rcases List.mem_cons.mp hq with hq1 | hq1
    · rw [hp1, hq1]
    · exfalso
      apply hn.1
      rw [hp1] at hk
      rw [hk]
      exact List.mem_map_of_mem Prod.fst hq1
    · exfalso
      apply hn.1
      rw [hq1] at hk
      rw [← hk]
      exact List.mem_map_of_mem Prod.fst hp1
    · exact ih hn.2 hp1 hq1

/-- A list mean (with `0/0 = 0` for the empty list) of values in the
unit interval lies in the unit interval. -/
theorem list_mean_unit {l : List ℚ} (h0 : ∀ x ∈ l, 0 ≤ x) (h1 : ∀ x ∈ l, x ≤ 1) :
    0 ≤ l.sum / (l.length : ℚ) ∧ l.sum / (l.length : ℚ) ≤ 1 := by
  constructor
  · exact div_nonneg (List.sum_nonneg h0) (by positivity)
  · rcases eq_or_ne l [] with rfl | hne
    · simp
    · have hlen : 0 < (l.length : ℚ) := by
        exact_mod_cast List.length_pos.mpr hne
      rw [div_le_one hlen]
      calc l.sum ≤ l.length • (1 : ℚ) := List.sum_le_card_nsmul l 1 h1
        _ = l.length := by simp

/-- C4: for a non-empty node list, `_calculate_quality_score` is the
weighted average `0.3·(mean node confidence) + 0.3·(mean edge
confidence, 0 without edges) + 0.2·min(distinct node types/6, 1) +
0.2·min(distinct edge types/5, 1)`; for an empty node list it is 0; and
when all confidences lie in `[0, 1]`, so does the result. -/
theorem calculate_quality_score_spec :
    (∀ edges, calculate_quality_score [] edges = 0) ∧
    (∀ nodes edges, nodes ≠ [] →
      calculate_quality_score nodes edges =
        0.3 * ((nodes.map fun n => n.confidence).sum / (nodes.length : ℚ)) +
        0.3 * (if edges = [] then 0
          else (edges.map fun e => e.confidence).sum / (edges.length : ℚ)) +
        0.2 * min ((((nodes.map fun n => n.node_type.value).eraseDups).length : ℚ) / 6) 1 +
        0.2 * min (((if edges = [] then (0 : ℕ)
          else ((edges.map fun e => e.edge_type.value).eraseDups).length) : ℚ) / 5) 1) ∧
    (∀ nodes edges,
      (∀ n ∈ nodes, 0 ≤ n.confidence ∧ n.confidence ≤ 1) →
      (∀ e ∈ edges, 0 ≤ e.confidence ∧ e.confidence ≤ 1) →
      0 ≤ calculate_quality_score nodes edges ∧ calculate_quality_score nodes edges ≤ 1) := by
  have heq : ∀ (nodes : List EnhancedHyperNode) (edges : List EnhancedHyperEdge),
      nodes ≠ [] →
      calculate_quality_score nodes edges =
        0.3 * ((nodes.map fun n => n.confidence).sum / (nodes.length : ℚ)) +
        0.3 * (if edges = [] then 0
          else (edges.map fun e => e.confidence).sum / (edges.length : ℚ)) +
        0.2 * min ((((nodes.map fun n => n.node_type.value).eraseDups).length : ℚ) / 6) 1 +
        0.2 * min (((if edges = [] then (0 : ℕ)
          else ((edges.map fun e => e.edge_type.value).eraseDups).length) : ℚ) / 5) 1 := by
    intro nodes edges hne
    rcases edges with _ | ⟨e, es⟩ <;>
      simp [calculate_quality_score, List.isEmpty_iff, hne] <;> norm_num
  refine ⟨fun edges => by norm_num [calculate_quality_score], heq, ?_⟩
  intro nodes edges hn he
  rcases eq_or_ne nodes [] with rfl | hne
  · norm_num [calculate_quality_score]
  · rw [heq nodes edges hne]
    have ha := list_mean_unit (l := nodes.map fun n => n.confidence)
      (by intro x hx; obtain ⟨n, hnn, rfl⟩ := List.mem_map.mp hx; exact (hn n hnn).1)
      (by intro x hx; obtain ⟨n, hnn, rfl⟩ := List.mem_map.mp hx; exact (hn n hnn).2)
    simp only [List.length_map] at ha
    have hb : 0 ≤ (if edges = [] then 0
        else (edges.map fun e => e.confidence).sum / (edges.length : ℚ)) ∧
        (if edges = [] then 0
        else (edges.map fun e => e.confidence).sum / (edges.length : ℚ)) ≤ 1 := by
      rcases eq_or_ne edges [] with rfl | hee
      · norm_num
      · have := list_mean_unit (l := edges.map fun e => e.confidence)
          (by intro x hx; obtain ⟨e, hme, rfl⟩ := List.mem_map.mp hx; exact (he e hme).1)
          (by intro x hx; obtain ⟨e, hme, rfl⟩ := List.mem_map.mp hx; exact (he e hme).2)
        simpa [hee] using this
    have hc : 0 ≤ min ((((nodes.map fun n => n.node_type.value).eraseDups).length : ℚ) / 6) 1 ∧
        min ((((nodes.map fun n => n.node_type.value).eraseDups).length : ℚ) / 6) 1 ≤ 1 :=
      ⟨le_min (by positivity) zero_le_one, min_le_right _ _⟩
    have hd : 0 ≤ min (((if edges = [] then (0 : ℕ)
          else ((edges.map fun e => e.edge_type.value).eraseDups).length) : ℚ) / 5) 1 ∧
        min (((if edges = [] then (0 : ℕ)
          else ((edges.map fun e => e.edge_type.value).eraseDups).length) : ℚ) / 5) 1 ≤ 1 :=
      ⟨le_min (by positivity) zero_le_one, min_le_right _ _⟩
    constructor <;> linarith [ha.1, ha.2, hb.1, hb.2, hc.1, hc.2, hd.1, hd.2]

/-- Witness for C4 at a concrete one-node, no-edge graph: the formula
gives `0.3·1 + 0.2·(1/6) = 1/3`, and the bounds hold. -/
theorem calculate_quality_score_spec_witness :
    calculate_quality_score
      [{ id := "n1", content := "c", node_type := .person, confidence := 1,
         timestamp := "t", source := "s" }] [] = 1/3 ∧
    (0 ≤ calculate_quality_score
      [{ id := "n1", content := "c", node_type := .person, confidence := 1,
         timestamp := "t", source := "s" }] [] ∧
     calculate_quality_score
      [{ id := "n1", content := "c", node_type := .person, confidence := 1,
         timestamp := "t", source := "s" }] [] ≤ 1) := by
  have h1 := calculate_quality_score_spec.2.1
    [{ id := "n1", content := "c", node_type := .person, confidence := 1,
       timestamp := "t", source := "s" }] [] (by simp)
  have h2 := calculate_quality_score_spec.2.2
    [{ id := "n1", content := "c", node_type := .person, confidence := 1,
       timestamp := "t", source := "s" }] []
    (by intro n hn; simp only [List.mem_singleton] at hn; subst hn; norm_num)
    (by simp)
  refine ⟨?_, h2⟩
  rw [h1]
  have h3 : [NodeType.person.value].eraseDups.length = 1 := by decide
  simp only [List.map_cons, List.map_nil]
  norm_num [h3, min_def]

/-- C5: `_generate_graph_insights` computes `graph_density` as
`len(edges) / (n·(n−1))` when the graph has more than one node and `0.0`
otherwise. -/
theorem graph_density_spec :
    (∀ nodes edges, 1 < nodes.length →
      (generate_graph_insights nodes edges).graph_density =
        (edges.length : ℚ) / ((nodes.length : ℚ) * ((nodes.length : ℚ) - 1))) ∧
    (∀ nodes edges, nodes.length ≤ 1 →
      (generate_graph_insights nodes edges).graph_density = 0) := by
  constructor
  · intro nodes edges h
    simp [generate_graph_insights, h]
  · intro nodes edges h
    simp [generate_graph_insights, show ¬1 < nodes.length by omega]
    norm_num

/-- Witness for C5: two nodes and one self-loop edge give density
`1 / (2·1) = 1/2`, and a single node gives density `0`. -/
theorem graph_density_spec_witness :
    (generate_graph_insights
      [{ id := "a", content := "x", node_type := .person, confidence := 1,
         timestamp := "t", source := "s" },
       { id := "b", content := "y", node_type := .person, confidence := 1,
         timestamp := "t", source := "s" }]
      [{ id := "e", source_node_id := "a", target_node_id := "b",
         edge_type := .uses, confidence := 1, timestamp := "t",
         evidence := [], reasoning := "r" }]).graph_density = 1/2 ∧
    (generate_graph_insights
      [{ id := "a", content := "x", node_type := .person, confidence := 1,
         timestamp := "t", source := "s" }] []).graph_density = 0 := by
  constructor
  · rw [graph_density_spec.1 _ _ (by simp)]
    norm_num
  · exact graph_density_spec.2 _ _ (by simp)

/-- The Python `max` fold over strings returns an element of the inputs
that bounds all of them from above. -/
theorem pyMaxStr_spec (x : String) (xs : List String) :
    (pyMaxStr x xs = x ∨ pyMaxStr x xs ∈ xs) ∧
    x ≤ pyMaxStr x xs ∧ ∀ t ∈ xs, t ≤ pyMaxStr x xs := by
  induction xs generalizing x with
  | nil => simp [pyMaxStr]
  | cons b bs ih =>
    have step : ∀ y : String, pyMaxStr y (b :: bs) = pyMaxStr (if y < b then b else y) bs :=
      fun _ => rfl
    obtain ⟨hmem, hle, hall⟩ := ih (if x < b then b else x)
    by_cases hxb : x < b
    · have hif : (if x < b then b else x) = b := if_pos hxb
      rw [hif] at hmem hle hall
      refine ⟨?_, ?_, ?_⟩
      · rw [step, hif]
        rcases hmem with h | h
        · refine Or.inr ?_
          rw [h]
          exact List.mem_cons_self _ _
        · exact Or.inr (List.mem_cons_of_mem _ h)
      · rw [step, hif]
        exact le_trans (le_of_lt hxb) hle
      · rw [step, hif]
        intro t ht
        rcases List.mem_cons.mp ht with h | h2
        · rw [h]
          exact hle
        · exact hall t h2
    · have hif : (if x < b then b else x) = x := if_neg hxb
      rw [hif] at hmem hle hall
      refine ⟨?_, ?_, ?_⟩
      · rw [step, hif]
        rcases hmem with h | h
        · exact Or.inl h
        · exact Or.inr (List.mem_cons_of_mem _ h)
      · rw [step, hif]
        exact hle
      · rw [step, hif]
        intro t ht
        rcases List.mem_cons.mp ht with h | h2
        · rw [h]
          exact le_trans (le_of_not_lt hxb) hle
        · exact hall t h2

/-- C10: for a non-empty edge list, `most_common_relationship` is the
greatest edge-type string in Lean's lexicographic string order (the
order of Python `max`), regardless of multiplicities; for an empty edge
list it is `none`. -/
theorem most_common_relationship_spec :
    (∀ nodes edges, edges ≠ [] →
      (generate_graph_insights nodes edges).most_common_relationship ∈
        edges.map (fun e => e.edge_type.value) ∧
      ∀ t ∈ edges.map (fun e => e.edge_type.value),
        t ≤ (generate_graph_insights nodes edges).most_common_relationship) ∧
    (∀ nodes, (generate_graph_insights nodes []).most_common_relationship = "none") := by
  constructor
  · intro nodes edges hne
    rcases edges with _ | ⟨e, es⟩
    · exact absurd rfl hne
    · have hfield : (generate_graph_insights nodes (e :: es)).most_common_relationship =
          pyMaxStr e.edge_type.value (es.map fun e2 => e2.edge_type.value) := by
        simp [generate_graph_insights]
      rw [hfield]
      obtain ⟨hmem, hle, hall⟩ :=
        pyMaxStr_spec e.edge_type.value (es.map fun e2 => e2.edge_type.value)
      constructor
      · rcases hmem with h | h
        · rw [h]
          simp
        · simp only [List.map_cons, List.mem_cons]
          exact Or.inr h
      · intro t ht
        rw [List.map_cons] at ht
        rcases List.mem_cons.mp ht with h | h2
        · rw [h]
          exact hle
        · exact hall t h2
  · intro nodes
    simp [generate_graph_insights]

/-- Witness for C10: with edge types `uses` and `demonstrates`, the
reported most common relationship is the lexicographic maximum `uses`,
which bounds both strings. -/
theorem most_common_relationship_spec_witness :
    (generate_graph_insights []
      [{ id := "e1", source_node_id := "a", target_node_id := "b",
         edge_type := .demonstrates, confidence := 1, timestamp := "t",
         evidence := [], reasoning := "r" },
       { id := "e2", source_node_id := "b", target_node_id := "a",
         edge_type := .uses, confidence := 1, timestamp := "t",
         evidence := [], reasoning := "r" }]).most_common_relationship ∈
      ["demonstrates", "uses"] ∧
    (generate_graph_insights [] ([] : List EnhancedHyperEdge)).most_common_relationship
      = "none" := by
  constructor
  · have h := (most_common_relationship_spec.1 []
      [{ id := "e1", source_node_id := "a", target_node_id := "b",
         edge_type := .demonstrates, confidence := 1, timestamp := "t",
         evidence := [], reasoning := "r" },
       { id := "e2", source_node_id := "b", target_node_id := "a",
         edge_type := .uses, confidence := 1, timestamp := "t",
         evidence := [], reasoning := "r" }] (by simp)).1
    simpa [EdgeType.value] using h
  · exact most_common_relationship_spec.2 []

/-- Is a retry event a `put_object` attempt? -/
def isAttemptEvent : RetryEvent → Bool
  | .attempt _ => true
  | .sleep _ => false

/-- C7: `_store_json_with_retry` makes at most `max_retries = 3`
attempts; it returns right after the first success; after the k-th
failed attempt (k = 1, 2) it sleeps `base_delay · 2^(k−1)` seconds; and
when all three attempts fail it raises `S3StorageError`. -/
theorem store_json_with_retry_spec :
    (∀ succeeds, ((store_json_with_retry succeeds).1.filter isAttemptEvent).length ≤ 3) ∧
    (∀ succeeds, succeeds 0 = true →
      store_json_with_retry succeeds = ([.attempt 1], .stored)) ∧
    (∀ succeeds, succeeds 0 = false → succeeds 1 = true →
      store_json_with_retry succeeds =
        ([.attempt 1, .sleep (baseDelay * 2 ^ (1 - 1)), .attempt 2], .stored)) ∧
    (∀ succeeds, succeeds 0 = false → succeeds 1 = false → succeeds 2 = true →
      store_json_with_retry succeeds =
        ([.attempt 1, .sleep (baseDelay * 2 ^ (1 - 1)), .attempt 2,
          .sleep (baseDelay * 2 ^ (2 - 1)), .attempt 3], .stored)) ∧
    (∀ succeeds, succeeds 0 = false → succeeds 1 = false → succeeds 2 = false →
      store_json_with_retry succeeds =
        ([.attempt 1, .sleep (baseDelay * 2 ^ (1 - 1)), .attempt 2,
          .sleep (baseDelay * 2 ^ (2 - 1)), .attempt 3], .s3StorageError)) := by
  refine ⟨?bound, ?first, ?second, ?third, ?fail⟩
  case bound =>
    intro succeeds
    cases h0 : succeeds 0 <;> cases h1 : succeeds 1 <;> cases h2 : succeeds 2 <;>
      simp [store_json_with_retry, storeRetryGo, maxRetries, h0, h1, h2, isAttemptEvent]
  all_goals
    intro succeeds
    intros
    simp_all [store_json_with_retry, storeRetryGo, maxRetries]

/-- Witness for C7: with every attempt failing the loop attempts three
times, sleeps 1 s then 2 s, and raises; with the second attempt
succeeding it stops after two attempts. -/
theorem store_json_with_retry_spec_witness :
    store_json_with_retry (fun _ => false) =
      ([.attempt 1, .sleep (baseDelay * 2 ^ (1 - 1)), .attempt 2,
        .sleep (baseDelay * 2 ^ (2 - 1)), .attempt 3], .s3StorageError) ∧
    store_json_with_retry (fun k => k == 1) =
      ([.attempt 1, .sleep (baseDelay * 2 ^ (1 - 1)), .attempt 2], .stored) :=
  ⟨store_json_with_retry_spec.2.2.2.2 _ rfl rfl rfl,
   store_json_with_retry_spec.2.2.1 _ rfl rfl⟩

/-- C6 counterexample: `system` and `apple` have the same word,
sentence and speaker counts but different complexity scores (the score
also depends on the technical-keyword hits, and on the paragraph count,
while the computed `sentence_count` is never used). -/
theorem complexity_not_determined_by_word_sentence_speaker :
    (pyWords "system").length = (pyWords "apple").length ∧
    sentenceCount "system" = sentenceCount "apple" ∧
    speakerCount "system" = speakerCount "apple" ∧
    analyze_content_complexity "system" ≠ analyze_content_complexity "apple" := by
  refine ⟨by decide, by decide, by decide, ?_⟩
  have w1 : (pyWords "system").length = 1 := by decide
  have w2 : (pyWords "apple").length = 1 := by decide
  have p1 : paragraphCount "system" = 1 := by decide
  have p2 : paragraphCount "apple" = 1 := by decide
  have s1 : speakerCount "system" = 0 := by decide
  have s2 : speakerCount "apple" = 0 := by decide
  have t1 : (technicalKeywords.filter fun k => strContains (pyLower "system") k).length = 1 := by
    decide
  have t2 : (technicalKeywords.filter fun k => strContains (pyLower "apple") k).length = 0 := by
    decide
  have tl : technicalKeywords.length = 6 := by decide
  simp only [analyze_content_complexity, w1, w2, p1, p2, s1, s2, t1, t2, tl]
  norm_num [min_def]

/-- C6 (amended): `analyze_content_complexity` always returns a value
in `[0, 1]`, and the value is determined by the word count, paragraph
count, speaker count and technical-keyword hits of the content. -/
theorem analyze_content_complexity_spec :
    (∀ content, 0 ≤ analyze_content_complexity content ∧
      analyze_content_complexity content ≤ 1) ∧
    (∀ c1 c2, (pyWords c1).length = (pyWords c2).length →
      paragraphCount c1 = paragraphCount c2 →
      speakerCount c1 = speakerCount c2 →
      (technicalKeywords.filter fun k => strContains (pyLower c1) k).length =
        (technicalKeywords.filter fun k => strContains (pyLower c2) k).length →
      analyze_content_complexity c1 = analyze_content_complexity c2) := by
  constructor
  · intro content
    simp only [analyze_content_complexity]
    constructor
    · apply le_min _ (by norm_num)
      positivity
    · exact le_trans (min_le_right _ _) (by norm_num)
  · intro c1 c2 h1 h2 h3 h4
    simp only [analyze_content_complexity]
    rw [h1, h2, h3, h4]

/-- Witness for C6 (amended): two contents agreeing on all four
determining quantities get equal scores, and a concrete score is in
bounds. -/
theorem analyze_content_complexity_spec_witness :
    analyze_content_complexity "ab" = analyze_content_complexity "ba" ∧
    0 ≤ analyze_content_complexity "system" := by
  refine ⟨analyze_content_complexity_spec.2 "ab" "ba" ?_ ?_ ?_ ?_,
    (analyze_content_complexity_spec.1 "system").1⟩ <;> decide

/-- Sanity check of the MD5 implementation against the RFC 1321 test
suite value for `abc`. -/
theorem md5_test_vector :
    md5Hex (strBytes "abc") = "900150983cd24fb0d6963f7d28e17f72" := by decide

/-- Sanity check of the SHA-256 implementation against the FIPS 180-4
test vector for `abc`. -/
theorem sha256_test_vector :
    sha256Hex (strBytes "abc") =
      "ba7816bf8f01cfea414140de5dae2223b00361a396177a9cb410ff61f20015ad" := by decide

/-- C1: the V2 builder node id is the node-type value followed by an
underscore and the first 8 hex digits of the MD5 of the lowercased
content; the graph-extraction node and edge ids depend only on the
customer id together with content and node type (for nodes) or the
endpoint ids and edge type (for edges) — all other hypernode/hyperedge
fields are irrelevant, so identical inputs always give identical ids. -/
theorem node_edge_ids_deterministic :
    (∀ content node_type, v2_generate_node_id content node_type =
      node_type.value ++ "_" ++ strTake (md5Hex (strBytes (pyLower content))) 8) ∧
    (∀ h1 h2 : GEHypernode, ∀ customer_id, h1.content = h2.content →
      h1.node_type = h2.node_type →
      ge_generate_node_id h1 customer_id = ge_generate_node_id h2 customer_id) ∧
    (∀ e1 e2 : GEHyperedge, ∀ customer_id, e1.source_node_id = e2.source_node_id →
      e1.target_node_id = e2.target_node_id → e1.edge_type = e2.edge_type →
      ge_generate_edge_id e1 customer_id = ge_generate_edge_id e2 customer_id) := by
  refine ⟨fun _ _ => rfl, ?_, ?_⟩
  · intro h1 h2 cust hc ht
    simp only [ge_generate_node_id, hc, ht]
  · intro e1 e2 cust hs ht he
    simp only [ge_generate_edge_id, hs, ht, he]

/-- Witness for C1: a concrete V2 node id evaluates to its MD5-derived
value (`md5("john smith")` starts with `2adc83bf`), and hypernodes or
hyperedges differing only in claim-irrelevant fields get equal ids. -/
theorem node_edge_ids_deterministic_witness :
    v2_generate_node_id "John Smith" .person = "person_2adc83bf" ∧
    ge_generate_node_id ⟨some "x", some "person", some 1, []⟩ "c1" =
      ge_generate_node_id ⟨some "x", some "person", none, [("meta", "v")]⟩ "c1" ∧
    ge_generate_edge_id ⟨some "a", some "b", some "uses", some 1, []⟩ "c1" =
      ge_generate_edge_id ⟨some "a", some "b", some "uses", none, []⟩ "c1" := by
  refine ⟨?_, node_edge_ids_deterministic.2.1 _ _ "c1" rfl rfl,
    node_edge_ids_deterministic.2.2 _ _ "c1" rfl rfl rfl⟩
  rw [node_edge_ids_deterministic.1 "John Smith" .person]
  decide

/-- Every value of the folded content-to-id lookup is the id of one of
the hypernodes (or came from the initial dict). -/
theorem mem_foldl_nodeLookup {p : String × String}
    (nodes : List EnhancedHyperNode) (m0 : List (String × String)) :
    p ∈ nodes.foldl (fun m n => dictInsert m (pyLower n.content) n.id) m0 →
    (∃ n ∈ nodes, p.2 = n.id) ∨ p ∈ m0 := by
  induction nodes generalizing m0 with
  | nil => exact fun h => Or.inr h
  | cons n ns ih =>
    intro h
    rcases ih _ h with ⟨n2, hn2, hid⟩ | h2
    · exact Or.inl ⟨n2, List.mem_cons_of_mem _ hn2, hid⟩
    · rcases mem_dictInsert h2 with hm | he
      · exact Or.inr hm
      · exact Or.inl ⟨n, List.mem_cons_self _ _, by rw [he]⟩

/-- C9: every hyperedge built by `_create_enhanced_hyperedges` connects
exactly two nodes of the hypernode list it was built from: its source
and target ids are ids of listed nodes (relationships whose endpoint
texts match no node content are discarded). -/
theorem create_enhanced_hyperedges_endpoints :
    ∀ relationships hypernodes timestamp,
      ∀ e ∈ create_enhanced_hyperedges relationships hypernodes timestamp,
        (∃ n ∈ hypernodes, e.source_node_id = n.id) ∧
        (∃ n ∈ hypernodes, e.target_node_id = n.id) := by
  intro rels nodes ts e he
  simp only [create_enhanced_hyperedges] at he
  rcases List.mem_filterMap.mp he with ⟨rel, hrel, hmk⟩
  cases hfs : dictFind (nodeLookup nodes) (pyLower rel.source_entity) with
  | none => simp [hfs] at hmk
  | some sid =>
    cases hft : dictFind (nodeLookup nodes) (pyLower rel.target_entity) with
    | none => simp [hfs, hft] at hmk
    | some tid =>
      simp only [hfs, hft] at hmk
      by_cases hne : sid ≠ "" ∧ tid ≠ ""
      · rw [if_pos hne] at hmk
        injection hmk with hmk
        subst hmk
        constructor
        · rcases mem_foldl_nodeLookup nodes [] (dictFind_mem hfs) with ⟨n, hn, hid⟩ | habs
          · exact ⟨n, hn, hid⟩
          · simp at habs
        · rcases mem_foldl_nodeLookup nodes [] (dictFind_mem hft) with ⟨n, hn, hid⟩ | habs
          · exact ⟨n, hn, hid⟩
          · simp at habs
      · rw [if_neg hne] at hmk
        cases hmk

/-- Witness for C9 at a one-node, one-relationship input whose endpoint
texts both resolve (case-insensitively) to the node. -/
theorem create_enhanced_hyperedges_endpoints_witness :
    (∃ n ∈ [({ id := "person_1", content := "Alice", node_type := .person,
               confidence := 1, timestamp := "t", source := "s" } : EnhancedHyperNode)],
      ({ id := "edge_person_1_person_1_uses", source_node_id := "person_1",
         target_node_id := "person_1", edge_type := .uses, confidence := 1,
         timestamp := "t", evidence := [], reasoning := "r" } :
        EnhancedHyperEdge).source_node_id = n.id) ∧
    (∃ n ∈ [({ id := "person_1", content := "Alice", node_type := .person,
               confidence := 1, timestamp := "t", source := "s" } : EnhancedHyperNode)],
      ({ id := "edge_person_1_person_1_uses", source_node_id := "person_1",
         target_node_id := "person_1", edge_type := .uses, confidence := 1,
         timestamp := "t", evidence := [], reasoning := "r" } :
        EnhancedHyperEdge).target_node_id = n.id) :=
  create_enhanced_hyperedges_endpoints
    [{ source_entity := "ALICE", target_entity := "alice",
       relationship_type := .uses, confidence := 1, evidence := [],
       reasoning := "r", source := "s" }]
    [{ id := "person_1", content := "Alice", node_type := .person,
       confidence := 1, timestamp := "t", source := "s" }] "t" _
    (by
      rw [show create_enhanced_hyperedges
            [{ source_entity := "ALICE", target_entity := "alice",
               relationship_type := .uses, confidence := 1, evidence := [],
               reasoning := "r", source := "s" }]
            [{ id := "person_1", content := "Alice", node_type := .person,
               confidence := 1, timestamp := "t", source := "s" }] "t" =
          [{ id := "edge_person_1_person_1_uses", source_node_id := "person_1",
             target_node_id := "person_1", edge_type := .uses, confidence := 1,
             timestamp := "t", evidence := [], reasoning := "r" }] from rfl]
      exact List.mem_cons_self _ _)

/-- C8: every extracted node carries one of the 10 supported node types
(unrecognised types collapse to `concept`) and a confidence clamped to
`[0, 1]`; an extracted edge exists exactly for the hyperedges with
non-empty source and target ids (the others are dropped), and every
extracted edge carries one of the 13 supported edge types (unrecognised
types collapse to `relates_to`), a weight clamped to `[0, 1]` and
non-empty endpoint ids. -/
theorem ge_extract_nodes_edges_spec :
    (∀ hypernodes customer_id source_file current_time,
      ∀ n ∈ ge_extract_nodes hypernodes customer_id source_file current_time,
        n.node_type ∈ geSupportedNodeTypes ∧ 0 ≤ n.confidence ∧ n.confidence ≤ 1) ∧
    (∀ h : GEHypernode, ∀ customer_id source_file current_time,
      pyLower (h.node_type.getD "concept") ∉ geSupportedNodeTypes →
      (geBuildNode customer_id source_file current_time h).node_type = "concept") ∧
    (∀ hyperedges customer_id source_file current_time, ∀ e : ExtractedEdge,
      e ∈ ge_extract_edges hyperedges customer_id source_file current_time ↔
        ∃ he ∈ hyperedges, he.source_node_id.getD "" ≠ "" ∧
          he.target_node_id.getD "" ≠ "" ∧
          e = geBuildEdge customer_id source_file current_time he) ∧
    (∀ h : GEHyperedge, ∀ customer_id source_file current_time,
      pyLower (h.edge_type.getD "relates_to") ∉ geSupportedEdgeTypes →
      (geBuildEdge customer_id source_file current_time h).relationship_type
        = "relates_to") ∧
    (∀ hyperedges customer_id source_file current_time,
      ∀ e ∈ ge_extract_edges hyperedges customer_id source_file current_time,
        e.relationship_type ∈ geSupportedEdgeTypes ∧ 0 ≤ e.weight ∧ e.weight ≤ 1 ∧
        e.source_node_id ≠ "" ∧ e.target_node_id ≠ "") := by
  have h00 : (0.0 : ℚ) = 0 := by norm_num
  have h11 : (1.0 : ℚ) = 1 := by norm_num
  have hclamp : ∀ x : ℚ, 0 ≤ max 0.0 (min 1.0 x) ∧ max 0.0 (min 1.0 x) ≤ 1 := by
    intro x
    rw [h00, h11]
    exact ⟨le_max_left _ _, max_le zero_le_one (min_le_left _ _)⟩
  have hnt : ∀ (h : GEHypernode) customer_id source_file current_time,
      (geBuildNode customer_id source_file current_time h).node_type =
        (if pyLower (h.node_type.getD "concept") ∈ geSupportedNodeTypes
         then pyLower (h.node_type.getD "concept") else "concept") := fun _ _ _ _ => rfl
  have het : ∀ (h : GEHyperedge) customer_id source_file current_time,
      (geBuildEdge customer_id source_file current_time h).relationship_type =
        (if pyLower (h.edge_type.getD "relates_to") ∈ geSupportedEdgeTypes
         then pyLower (h.edge_type.getD "relates_to") else "relates_to") := fun _ _ _ _ => rfl
  have hiff : ∀ hyperedges customer_id source_file current_time, ∀ e : ExtractedEdge,
      e ∈ ge_extract_edges hyperedges customer_id source_file current_time ↔
        ∃ he ∈ hyperedges, he.source_node_id.getD "" ≠ "" ∧
          he.target_node_id.getD "" ≠ "" ∧
          e = geBuildEdge customer_id source_file current_time he := by
    intro hyperedges customer_id source_file current_time e
    constructor
    · intro hmem
      rcases List.mem_filterMap.mp hmem with ⟨he, hin, hf⟩
      by_cases hcond : he.source_node_id.getD "" = "" ∨ he.target_node_id.getD "" = ""
      · rw [if_pos hcond] at hf
        cases hf
      · rw [if_neg hcond] at hf
        injection hf with hf
        push_neg at hcond
        exact ⟨he, hin, hcond.1, hcond.2, hf.symm⟩
    · rintro ⟨he, hin, hs, ht, rfl⟩
      apply List.mem_filterMap.mpr
      refine ⟨he, hin, ?_⟩
      rw [if_neg (by push_neg; exact ⟨hs, ht⟩)]
  refine ⟨?_, ?_, hiff, ?_, ?_⟩
  · intro hypernodes customer_id source_file current_time n hn
    rcases List.mem_map.mp hn with ⟨h, hh, rfl⟩
    refine ⟨?_, (hclamp _).1, (hclamp _).2⟩
    rw [hnt]
    by_cases hsup : pyLower (h.node_type.getD "concept") ∈ geSupportedNodeTypes
    · rw [if_pos hsup]
      exact hsup
    · rw [if_neg hsup]
      decide
  · intro h customer_id source_file current_time hsup
    rw [hnt, if_neg hsup]
  · intro h customer_id source_file current_time hsup
    rw [het, if_neg hsup]
  · intro hyperedges customer_id source_file current_time e he
    rcases (hiff hyperedges customer_id source_file current_time e).mp he with
      ⟨he0, hin, hs, ht, rfl⟩
    refine ⟨?_, (hclamp _).1, (hclamp _).2, hs, ht⟩
    rw [het]
    by_cases hsup : pyLower (he0.edge_type.getD "relates_to") ∈ geSupportedEdgeTypes
    · rw [if_pos hsup]
      exact hsup
    · rw [if_neg hsup]
      decide

/-- Witness for C8: a hypernode with the unknown type `WEIRD` and
confidence 2 yields a supported type and a clamped confidence; a
hyperedge with both endpoints present is emitted. -/
theorem ge_extract_nodes_edges_spec_witness :
    ((geBuildNode "c" "s" "t" ⟨some "x", some "WEIRD", some 2, []⟩).node_type
        ∈ geSupportedNodeTypes ∧
      0 ≤ (geBuildNode "c" "s" "t" ⟨some "x", some "WEIRD", some 2, []⟩).confidence ∧
      (geBuildNode "c" "s" "t" ⟨some "x", some "WEIRD", some 2, []⟩).confidence ≤ 1) ∧
    geBuildEdge "c" "s" "t" ⟨some "a", some "b", some "uses", some 1, []⟩ ∈
      ge_extract_edges [⟨some "a", some "b", some "uses", some 1, []⟩] "c" "s" "t" := by
  constructor
  · exact ge_extract_nodes_edges_spec.1 [⟨some "x", some "WEIRD", some 2, []⟩] "c" "s" "t" _
      (List.mem_map_of_mem _ (List.mem_cons_self _ _))
  · exact (ge_extract_nodes_edges_spec.2.2.1 [⟨some "a", some "b", some "uses", some 1, []⟩]
      "c" "s" "t" _).mpr
      ⟨_, List.mem_cons_self _ _, by decide, by decide, rfl⟩

/-- Invariants of one `_deduplicate_entities` loop iteration: keys
still label their entities, keys stay nodup, existing entries survive
with no smaller confidence, the processed entity gains a representative
with at least its confidence, and every entry is old or the new entity. -/
theorem dedupStep_spec (m : List ((String × NodeType) × CleanEntity)) (e : CleanEntity)
    (hA : ∀ p ∈ m, p.1 = entityKey p.2) (hB : (m.map Prod.fst).Nodup) :
    (∀ p ∈ dedupStep m e, p.1 = entityKey p.2) ∧
    ((dedupStep m e).map Prod.fst).Nodup ∧
    (∀ p ∈ m, ∃ p2 ∈ dedupStep m e, p2.1 = p.1 ∧ p.2.confidence ≤ p2.2.confidence) ∧
    (∃ p2 ∈ dedupStep m e, p2.1 = entityKey e ∧ e.confidence ≤ p2.2.confidence) ∧
    (∀ p2 ∈ dedupStep m e, p2.2 = e ∨ p2 ∈ m) := by
  cases hfind : dictFind m (entityKey e) with
  | none =>
    have hnotmem : entityKey e ∉ m.map Prod.fst := dictFind_eq_none.mp hfind
    have hins : dedupStep m e = m ++ [(entityKey e, e)] := by
      simp only [dedupStep, hfind]
      exact dictInsert_of_not_mem hnotmem
    rw [hins]
    refine ⟨?keys, ?nodup, ?keep, ?repr, ?prov⟩
    case keys =>
      intro p hp
      rcases List.mem_append.mp hp with h | h
      · exact hA p h
      · simp only [List.mem_singleton] at h
        rw [h]
    · simp [List.nodup_append, hB, hnotmem]
    · intro p hp
      exact ⟨p, List.mem_append_left _ hp, rfl, le_refl _⟩
    · exact ⟨(entityKey e, e), List.mem_append_right _ (List.mem_singleton_self _), rfl,
        le_refl _⟩
    · intro p2 hp2
      rcases List.mem_append.mp hp2 with h | h
      · exact Or.inr h
      · simp only [List.mem_singleton] at h
        exact Or.inl (by rw [h])
  | some old =>
    have hmemold : (entityKey e, old) ∈ m := dictFind_mem hfind
    by_cases hlt : old.confidence < e.confidence
    · have hins : dedupStep m e = dictInsert m (entityKey e) e := by
        simp only [dedupStep, hfind, if_pos hlt]
      rw [hins]
      refine ⟨?_, dictInsert_keys_nodup hB, ?_, ?_, ?_⟩
      · intro p hp
        rcases mem_dictInsert hp with h | h
        · exact hA p h
        · rw [h]
      · intro p hp
        by_cases hpk : p.1 = entityKey e
        · have hpold : p = (entityKey e, old) := keys_nodup_unique hB hp hmemold hpk
          obtain ⟨p2, hp2, hk2, hv2⟩ := dictInsert_self m (entityKey e) e
          refine ⟨p2, hp2, by rw [hk2, hpk], ?_⟩
          rw [hv2, hpold]
          exact le_of_lt hlt
        · exact ⟨p, dictInsert_preserves hp hpk e, rfl, le_refl _⟩
      · obtain ⟨p2, hp2, hk2, hv2⟩ := dictInsert_self m (entityKey e) e
        exact ⟨p2, hp2, hk2, by rw [hv2]⟩
      · intro p2 hp2
        rcases mem_dictInsert hp2 with h | h
        · exact Or.inr h
        · exact Or.inl (by rw [h])
    · have hins : dedupStep m e = m := by
        simp only [dedupStep, hfind, if_neg hlt]
      rw [hins]
      refine ⟨hA, hB, fun p hp => ⟨p, hp, rfl, le_refl _⟩,
        ⟨(entityKey e, old), hmemold, rfl, le_of_not_lt hlt⟩,
        fun p2 hp2 => Or.inr hp2⟩

/-- The full fold of `_deduplicate_entities` keeps the dict invariants
and accumulates coverage, maximality and provenance over the processed
entities. -/
theorem dedup_fold_spec (es : List CleanEntity) :
    ∀ m : List ((String × NodeType) × CleanEntity),
    (∀ p ∈ m, p.1 = entityKey p.2) →
    (m.map Prod.fst).Nodup →
    (∀ p ∈ es.foldl dedupStep m, p.1 = entityKey p.2) ∧
    ((es.foldl dedupStep m).map Prod.fst).Nodup ∧
    (∀ p ∈ m, ∃ p2 ∈ es.foldl dedupStep m, p2.1 = p.1 ∧
      p.2.confidence ≤ p2.2.confidence) ∧
    (∀ e ∈ es, ∃ p2 ∈ es.foldl dedupStep m, p2.1 = entityKey e ∧
      e.confidence ≤ p2.2.confidence) ∧
    (∀ p2 ∈ es.foldl dedupStep m, p2.2 ∈ es ∨ p2 ∈ m) := by
  induction es with
  | nil =>
    intro m hA hB
    exact ⟨hA, hB, fun p hp => ⟨p, hp, rfl, le_refl _⟩, by simp,
      fun p2 hp2 => Or.inr hp2⟩
  | cons e rest ih =>
    intro m hA hB
    obtain ⟨hA1, hB1, hK3, hK4, hP5⟩ := dedupStep_spec m e hA hB
    obtain ⟨A2, B2, K3, K4, P5⟩ := ih (dedupStep m e) hA1 hB1
    have hfold : (e :: rest).foldl dedupStep m = rest.foldl dedupStep (dedupStep m e) := rfl
    rw [hfold]
    refine ⟨A2, B2, ?_, ?_, ?_⟩
    · intro p hp
      obtain ⟨p1, hp1, hpk1, hpc1⟩ := hK3 p hp
      obtain ⟨p2, hp2, hpk2, hpc2⟩ := K3 p1 hp1
      exact ⟨p2, hp2, by rw [hpk2, hpk1], le_trans hpc1 hpc2⟩
    · intro e2 he2
      rcases List.mem_cons.mp he2 with rfl | h
      · obtain ⟨p1, hp1, hpk1, hpc1⟩ := hK4
        obtain ⟨p2, hp2, hpk2, hpc2⟩ := K3 p1 hp1
        exact ⟨p2, hp2, by rw [hpk2, hpk1], le_trans hpc1 hpc2⟩
      · exact K4 e2 h
    · intro p2 hp2
      rcases P5 p2 hp2 with h | h
      · exact Or.inl (List.mem_cons_of_mem _ h)
      · rcases hP5 p2 h with h2 | h2
        · exact Or.inl (by rw [h2]; exact List.mem_cons_self _ _)
        · exact Or.inr h2

/-- C3: `_deduplicate_entities` emits each `(lowercased text, type)` key
at most once; a retained entity has maximal confidence among all input
entities sharing its key; every input key survives; and every output
entity is one of the inputs. -/
theorem deduplicate_entities_spec (entities : List CleanEntity) :
    ((deduplicate_entities entities).map entityKey).Nodup ∧
    (∀ e ∈ entities, ∃ e2 ∈ deduplicate_entities entities,
      entityKey e2 = entityKey e) ∧
    (∀ e2 ∈ deduplicate_entities entities, ∀ e ∈ entities,
      entityKey e = entityKey e2 → e.confidence ≤ e2.confidence) ∧
    (∀ e2 ∈ deduplicate_entities entities, e2 ∈ entities) := by
  obtain ⟨A2, B2, _, K4, P5⟩ :=
    dedup_fold_spec entities [] (by simp) (by simp)
  have hout : deduplicate_entities entities =
      (entities.foldl dedupStep []).map Prod.snd := rfl
  have hmapkeys : (deduplicate_entities entities).map entityKey =
      (entities.foldl dedupStep []).map Prod.fst := by
    rw [hout, List.map_map]
    exact List.map_congr_left fun p hp => (A2 p hp).symm
  refine ⟨?_, ?_, ?_, ?_⟩
  · rw [hmapkeys]
    exact B2
  · intro e he
    obtain ⟨p2, hp2, hpk, _⟩ := K4 e he
    exact ⟨p2.2, by rw [hout]; exact List.mem_map_of_mem _ hp2, by rw [← A2 p2 hp2, hpk]⟩
  · intro e2 he2 e he hke
    rw [hout] at he2
    obtain ⟨p, hp, hpe⟩ := List.mem_map.mp he2
    obtain ⟨p2, hp2, hpk2, hpc2⟩ := K4 e he
    have hkeq : p2.1 = p.1 := by
      rw [hpk2, A2 p hp, hpe, hke]
    have : p2 = p := keys_nodup_unique B2 hp2 hp hkeq
    rw [← hpe, ← this]
    exact hpc2
  · intro e2 he2
    rw [hout] at he2
    obtain ⟨p, hp, hpe⟩ := List.mem_map.mp he2
    rcases P5 p hp with h | h
    · rw [← hpe]
      exact h
    · simp at h

/-- Witness for C3: deduplicating `Python`/`python` skill entities with
confidences 0 and 1 keeps the higher-confidence one only. -/
theorem deduplicate_entities_spec_witness :
    deduplicate_entities
      [{ text := "Python", entity_type := .skill, confidence := 0, context := "c1",
         source := "s1", properties := [], domain_relevance := 1 },
       { text := "python", entity_type := .skill, confidence := 1, context := "c2",
         source := "s2", properties := [], domain_relevance := 1 }] =
      [{ text := "python", entity_type := .skill, confidence := 1, context := "c2",
         source := "s2", properties := [], domain_relevance := 1 }] ∧
    (∃ e2 ∈ deduplicate_entities
      [{ text := "Python", entity_type := .skill, confidence := 0, context := "c1",
         source := "s1", properties := [], domain_relevance := 1 },
       { text := "python", entity_type := .skill, confidence := 1, context := "c2",
         source := "s2", properties := [], domain_relevance := 1 }],
      entityKey e2 = entityKey
        { text := "Python", entity_type := .skill, confidence := 0, context := "c1",
          source := "s1", properties := [], domain_relevance := 1 }) :=
  ⟨rfl,
   (deduplicate_entities_spec _).2.1 _ (List.mem_cons_self _ _)⟩

/-- C2 (amended): `combine_needs_scores` maps every need to exactly
`0.3·keyword + 0.7·LLM` (missing entries read as 0), and this blend is
the `needs_scores` that `InterviewNeedsAnalyzer.analyze_needs_from_interview`
returns whenever the LLM scoring step returns normally.  (The lambda
handler itself goes through `analyze_human_needs`, which does not
blend — see the counterexample.) -/
theorem combine_needs_scores_spec :
    (∀ keyword_scores llm_scores need,
      dictFind (combine_needs_scores keyword_scores llm_scores) need =
        some (0.3 * (dictFind keyword_scores need).getD 0.0 +
          0.7 * (dictFind llm_scores need).getD 0.0)) ∧
    (∀ content generation llm_scores,
      analyze_needs_with_llm_scores generation = .ok llm_scores →
      analyze_needs_from_interview_scores content generation =
        .ok (combine_needs_scores (analyze_needs_keywords content) llm_scores)) := by
  constructor
  · intro keyword_scores llm_scores need
    cases need <;> rfl
  · intro content generation llm_scores h
    simp only [analyze_needs_from_interview_scores, h]

/-- Witness for C2 (amended): blending the varied fallback scores with
an empty dict gives `0.3·0.7 + 0.7·0` for `growth`, and with an
unparseable (empty) LLM generation the class path returns the blend of
the keyword scores with the fallback scores. -/
theorem combine_needs_scores_spec_witness :
    dictFind (combine_needs_scores llmFallbackScores []) HumanNeed.growth =
      some (0.3 * 0.7 + 0.7 * 0) ∧
    analyze_needs_from_interview_scores "x" "" =
      .ok (combine_needs_scores (analyze_needs_keywords "x") llmFallbackScores) := by
  constructor
  · have h := combine_needs_scores_spec.1 llmFallbackScores [] HumanNeed.growth
    rw [show dictFind llmFallbackScores HumanNeed.growth = some 0.7 from rfl,
      show dictFind ([] : List (HumanNeed × ℚ)) HumanNeed.growth = none from rfl] at h
    rw [h]
    norm_num
  · exact combine_needs_scores_spec.2 "x" "" llmFallbackScores rfl

/-- C2 counterexample: for the same (empty, unparseable) LLM generation,
the lambda-handler path (`analyze_human_needs` →
`enhanced_response_parser`) reports `certainty = 0.4` (the content-aware
fallback), while the claimed 30/70 blend of the keyword score (0 for the
text `hello`) with the LLM fallback score (0.3) is `0.21`: the agent's
produced needs score is not the blended value. -/
theorem agent_scores_not_blend :
    dictFind (analyze_human_needs_scores "" "unknown" []) "certainty" =
      some (Json.num 0.4) ∧
    analyze_needs_from_interview_scores "hello" "" =
      .ok (combine_needs_scores (analyze_needs_keywords "hello") llmFallbackScores) ∧
    dictFind (combine_needs_scores (analyze_needs_keywords "hello") llmFallbackScores)
      HumanNeed.certainty = some (21/100) ∧
    ((21 : ℚ)/100 ≠ 0.4) := by
  refine ⟨rfl, rfl, ?_, by norm_num⟩
  have h1 : ((needsIndicators HumanNeed.certainty).1.map
      (fun k => countSub (pyLower "hello").data k.data)).sum = 0 := by decide
  have h2 : ((needsIndicators HumanNeed.certainty).2.1.filter
      (fun p => strContains (pyLower "hello") p)).length = 0 := by decide
  have h3 : ((needsIndicators HumanNeed.certainty).2.2.filter
      (fun p => strContains (pyLower "hello") p)).length = 0 := by decide
  have h4 : (needsIndicators HumanNeed.certainty).2.1.length = 5 := by decide
  have h5 : (needsIndicators HumanNeed.certainty).2.2.length = 3 := by decide
  have hwc : (pyWords "hello").length = 1 := by decide
  have hkw0 : dictFind (analyze_needs_keywords "hello") HumanNeed.certainty = some 0 := by
    simp only [analyze_needs_keywords, HumanNeed.all, List.map_cons, List.map_nil, dictFind,
      if_pos]
    rw [h1, h2, h3, h4, h5, hwc]
    norm_num [min_def, max_def]
  have hllm : dictFind llmFallbackScores HumanNeed.certainty = some 0.3 := rfl
  rw [combine_needs_scores_spec.1, hkw0, hllm]
  norm_num

end KG
